import Mathlib

/-!
Verification development for the AutoInventory persistence/consistency core.

The Python source is shallowly embedded: each SQLite table becomes a list of
row structures, each repository/controller method becomes a pure function
threading the database (and, for the ADC controller, its in-memory cache)
explicitly.  SQLite `CURRENT_TIMESTAMP` values are modelled as abstract clock
values of type `Nat` passed in as a `now` argument; `REAL` columns holding
packaging specification values are modelled as exact rationals (`ℚ`), which
faithfully reproduces the source's comparison structure (a `< 0.001`
tolerance test versus exact SQL equality); `INTEGER` columns are `Int`.
Python methods that return `(False, message)` tuples are modelled with
`Except`-style results whose error constructors stand for the distinct
message templates of the source; a raised (uncaught) sqlite3 exception is
modelled by the dedicated `SqlError` channel.  Auto-increment primary keys
are modelled with explicit counters where some later operation reads the key
back; the write-only primary key of `stock_movements` is omitted.
-/

deriving instance DecidableEq for Except

namespace AutoInventory

/-- First row matching a predicate, in row order: models a SELECT whose caller
keeps only the first result row (the repositories' `results[0]`). -/
def findRow {α : Type} (p : α → Prop) [DecidablePred p] : List α → Option α
  | [] => none
  | a :: l => if p a then some a else findRow p l

/-- Models `UPDATE ... SET ... WHERE p`: applies the field update `f` to every
matching row, leaving the others unchanged. -/
def updateRows {α : Type} (p : α → Prop) [DecidablePred p] (f : α → α) (l : List α) : List α :=
  l.map fun a => if p a then f a else a

/-- Models `DELETE FROM ... WHERE p`. -/
def deleteRows {α : Type} (p : α → Prop) [DecidablePred p] : List α → List α
  | [] => []
  | a :: l => if p a then deleteRows p l else a :: deleteRows p l

/-- Models `SELECT ... WHERE p` keeping row order. -/
def selectRows {α : Type} (p : α → Prop) [DecidablePred p] : List α → List α
  | [] => []
  | a :: l => if p a then a :: selectRows p l else selectRows p l

/-- Whether an UPDATE/DELETE touched at least one row (`cursor.rowcount > 0`
for a statement whose WHERE clause is `p`). -/
def rowExists {α : Type} (p : α → Prop) [DecidablePred p] (l : List α) : Bool :=
  (findRow p l).isSome

namespace Inv

/-- Row of the `materials` table (material/repository.py, init_material_tables).
The optimistic version token is the row's `updated_at` timestamp, exactly as in
the source (`SELECT *, updated_at as version`).  The image blobs live in a
separate table that no claim touches and are not modelled. -/
structure MaterialRow where
  id : Nat
  name : String
  category : String
  description : String
  quantity : Int
  unit : String
  min_stock : Int
  location : String
  supplier : String
  created_at : Nat
  updated_at : Nat
  deriving DecidableEq

/-- Row of the `orders` table. -/
structure OrderRow where
  id : Nat
  order_number : String
  requester : String
  department : String
  status : String
  priority : String
  notes : String
  created_at : Nat
  updated_at : Nat
  completed_at : Option Nat
  deriving DecidableEq

/-- Row of the `order_materials` table (one order line item). -/
structure OrderMaterialRow where
  id : Nat
  order_id : Nat
  material_id : Nat
  quantity : Int
  notes : String
  deriving DecidableEq

/-- Row of the append-only `stock_movements` table.  Its auto-increment
primary key and `created_at` default are never read by any modelled
operation and are omitted. -/
structure StockMovementRow where
  material_id : Nat
  movement_type : String
  quantity : Int
  reference_id : Option Nat
  notes : String
  deriving DecidableEq

/-- The inventory database state relevant to the material/order claims. -/
structure InvDB where
  materials : List MaterialRow
  orders : List OrderRow
  order_materials : List OrderMaterialRow
  stock_movements : List StockMovementRow
  deriving DecidableEq

/-- models.py OrderStatus.COMPLETED.value -/
def OrderStatus.COMPLETED : String := "completed"

/-- models.py OrderStatus.CANCELLED.value -/
def OrderStatus.CANCELLED : String := "cancelled"

/-- models.py MovementType.IN.value -/
def MovementType.IN : String := "in"

/-- models.py MovementType.OUT.value -/
def MovementType.OUT : String := "out"

/-- controllers.py MaterialController.get_material:
`SELECT * FROM materials WHERE id = ?`, first row. -/
def get_material (db : InvDB) (material_id : Nat) : Option MaterialRow :=
  findRow (fun m => m.id = material_id) db.materials

/-- controllers.py MaterialController._record_stock_movement:
`INSERT INTO stock_movements (material_id, movement_type, quantity, notes)`;
the omitted `reference_id` column is NULL. -/
def record_stock_movement (db : InvDB) (material_id : Nat) (movement_type : String)
    (quantity : Int) (notes : String) : InvDB :=
  { db with stock_movements :=
      db.stock_movements ++ [⟨material_id, movement_type, quantity, none, notes⟩] }

/-- The `Material` dataclass fields a caller supplies to `update_material`
(models.py Material, minus the db-managed timestamps).  An `id` of 0 models
Python's falsy `material.id` (None or 0). -/
structure MaterialInput where
  id : Nat
  name : String
  category : String
  description : String
  quantity : Int
  unit : String
  min_stock : Int
  location : String
  supplier : String
  deriving DecidableEq

/-- The distinct error message templates returned (as `(False, msg)` tuples)
by controllers.py MaterialController.update_material. -/
inductive UpdateError where
  /-- message template: material id must not be empty -/
  | emptyId
  /-- message template: material does not exist (NotFound) -/
  | notFound
  /-- message template: data was modified by another user, reload and retry
  (VersionConflict) -/
  | versionConflict
  /-- message template: update failed, material may have been deleted
  (legacy non-versioned path) -/
  | updateFailed
  deriving DecidableEq

/-- material/repository.py MaterialRepository.get_material_with_version:
`SELECT *, updated_at as version FROM materials WHERE id = ?`; the version
token is the row's `updated_at`. -/
def get_material_with_version (db : InvDB) (material_id : Nat) : Option MaterialRow :=
  findRow (fun m => m.id = material_id) db.materials

/-- material/repository.py MaterialRepository.update_material_with_version:
a single conditional statement
`UPDATE materials SET ..., updated_at=CURRENT_TIMESTAMP WHERE id=? AND updated_at=?`.
Returns `affected > 0` together with the updated table state. -/
def update_material_with_version (db : InvDB) (material_id : Nat) (data : MaterialInput)
    (expected_version : Nat) (now : Nat) : Bool × InvDB :=
  let p : MaterialRow → Prop := fun m => m.id = material_id ∧ m.updated_at = expected_version
  (rowExists p db.materials,
   { db with materials := updateRows p (fun m =>
       { m with name := data.name, category := data.category, description := data.description,
                quantity := data.quantity, unit := data.unit, min_stock := data.min_stock,
                location := data.location, supplier := data.supplier,
                updated_at := now }) db.materials })

/-- controllers.py MaterialController.update_material (lines 50-103), modelled
with its version-token reads and conditional write wired to the
MaterialRepository definitions just above.  NOTE (code bug): in the source the
controller invokes `self.db.get_material_with_version` /
`self.db.update_material_with_version`, but `self.db` is the DatabaseManager
of database.py, which defines neither method — the only definitions live on
MaterialRepository (material/repository.py), which is never wired to the
controller; at runtime every call raises an uncaught AttributeError.  This
model performs the delegation the spec describes so the intended optimistic
behaviour can be stated and proved. -/
def update_material (db : InvDB) (material : MaterialInput) (expected_version : Option Nat)
    (now : Nat) : Except UpdateError Unit × InvDB :=
  if material.id = 0 then (.error .emptyId, db)
  else
    match get_material_with_version db material.id with
    | none => (.error .notFound, db)
    | some current_data =>
      match expected_version with
      | some v =>
        -- optimistic pre-check: supplied token vs current version
        if current_data.updated_at ≠ v then (.error .versionConflict, db)
        else
          let r := update_material_with_version db material.id material v now
          if r.1 = false then (.error .versionConflict, r.2)
          else
            -- record the signed quantity delta as an in/out movement
            let quantity_diff : Int := material.quantity - current_data.quantity
            if quantity_diff ≠ 0 then
              (.ok (), record_stock_movement r.2 material.id
                (if quantity_diff > 0 then MovementType.IN else MovementType.OUT)
                |quantity_diff| "库存调整")
            else (.ok (), r.2)
      | none =>
          -- legacy unconditional UPDATE ... WHERE id=?
          let p : MaterialRow → Prop := fun m => m.id = material.id
          let db1 : InvDB := { db with materials := updateRows p (fun m =>
            { m with name := material.name, category := material.category,
                     description := material.description, quantity := material.quantity,
                     unit := material.unit, min_stock := material.min_stock,
                     location := material.location, supplier := material.supplier,
                     updated_at := now }) db.materials }
          if rowExists p db.materials = false then (.error .updateFailed, db1)
          else
            let quantity_diff : Int := material.quantity - current_data.quantity
            if quantity_diff ≠ 0 then
              (.ok (), record_stock_movement db1 material.id
                (if quantity_diff > 0 then MovementType.IN else MovementType.OUT)
                |quantity_diff| "库存调整")
            else (.ok (), db1)

/-- controllers.py OrderController.get_order_materials:
`SELECT om.* ... FROM order_materials om JOIN materials m ON om.material_id = m.id
WHERE om.order_id = ?` — the JOIN keeps only lines whose material row exists. -/
def get_order_materials (db : InvDB) (order_id : Nat) : List OrderMaterialRow :=
  selectRows (fun om => om.order_id = order_id ∧
    (findRow (fun m => m.id = om.material_id) db.materials).isSome = true) db.order_materials

/-- The distinct error message templates returned by
controllers.py OrderController.complete_order. -/
inductive CompleteError where
  /-- message template: order does not exist -/
  | orderNotFound
  /-- message template: order already completed -/
  | alreadyCompleted
  /-- message template: order already cancelled, cannot complete -/
  | alreadyCancelled
  /-- message template: material with this id does not exist -/
  | materialMissing (material_id : Nat)
  /-- message template: named material has insufficient stock
  (carries the one name plus required and current quantity) -/
  | insufficientStock (name : String) (required current : Int)
  deriving DecidableEq

/-- The stock precondition loop of complete_order (controllers.py lines
216-227): returns the first failure encountered, in line order, or `none`. -/
def checkStock (db : InvDB) : List OrderMaterialRow → Option CompleteError
  | [] => none
  | om :: rest =>
    match get_material db om.material_id with
    | none => some (.materialMissing om.material_id)
    | some m =>
      if m.quantity < om.quantity then
        some (.insufficientStock m.name om.quantity m.quantity)
      else checkStock db rest

/-- The statements complete_order submits to
DatabaseManager.execute_transaction, as an explicit operation datatype. -/
inductive SqlOp where
  /-- UPDATE orders SET status=completed, completed_at=CURRENT_TIMESTAMP,
  updated_at=CURRENT_TIMESTAMP WHERE id=? -/
  | completeOrderStatus (order_id : Nat) (now : Nat)
  /-- UPDATE materials SET quantity = quantity - ? WHERE id = ? -/
  | decreaseMaterial (material_id : Nat) (quantity : Int)
  /-- INSERT INTO stock_movements (material_id, movement_type, quantity,
  reference_id, notes) -/
  | insertMovement (material_id : Nat) (movement_type : String) (quantity : Int)
      (reference_id : Option Nat) (notes : String)
  deriving DecidableEq

/-- Effect of one statement of the completion transaction. -/
def applyOp (db : InvDB) : SqlOp → InvDB
  | .completeOrderStatus oid now =>
    { db with orders := updateRows (fun o => o.id = oid) (fun o =>
        { o with status := OrderStatus.COMPLETED,
                 completed_at := some now, updated_at := now }) db.orders }
  | .decreaseMaterial mid q =>
    { db with materials := updateRows (fun m => m.id = mid) (fun m =>
        { m with quantity := m.quantity - q }) db.materials }
  | .insertMovement mid t q r n =>
    { db with stock_movements := db.stock_movements ++ [⟨mid, t, q, r, n⟩] }

/-- database.py DatabaseManager.execute_transaction: all statements run under
one connection and one commit.  In this sequential model none of the
completion statements can fail, so the transaction is the fold of its
statements. -/
def execute_transaction (db : InvDB) (operations : List SqlOp) : InvDB :=
  operations.foldl applyOp db

/-- The per-line statements complete_order appends to its operation list
(controllers.py lines 238-253): one material decrement and one movement
insert per order line. -/
def lineOps (order_id : Nat) : List OrderMaterialRow → List SqlOp
  | [] => []
  | om :: rest =>
    .decreaseMaterial om.material_id om.quantity
      :: .insertMovement om.material_id MovementType.OUT om.quantity (some order_id) "订单完成"
      :: lineOps order_id rest

/-- controllers.py OrderController.complete_order (lines 203-259). -/
def complete_order (db : InvDB) (order_id : Nat) (now : Nat) :
    Except CompleteError Unit × InvDB :=
  match findRow (fun o => o.id = order_id) db.orders with
  | none => (.error .orderNotFound, db)
  | some order =>
    if order.status = OrderStatus.COMPLETED then (.error .alreadyCompleted, db)
    else if order.status = OrderStatus.CANCELLED then (.error .alreadyCancelled, db)
    else
      let materials := get_order_materials db order_id
      match checkStock db materials with
      | some e => (.error e, db)
      | none =>
        (.ok (), execute_transaction db
          (.completeOrderStatus order_id now :: lineOps order_id materials))

/-- controllers.py OrderController.cancel_order (lines 261-269):
an unconditional `UPDATE orders SET status=cancelled, updated_at=CURRENT_TIMESTAMP
WHERE id=?` — there is no status precondition. -/
def cancel_order (db : InvDB) (order_id : Nat) (now : Nat) : Bool × InvDB :=
  (rowExists (fun o => o.id = order_id) db.orders,
   { db with orders := updateRows (fun o => o.id = order_id) (fun o =>
       { o with status := OrderStatus.CANCELLED, updated_at := now }) db.orders })

/-- The Order dataclass fields update_order writes. -/
structure OrderInput where
  id : Nat
  order_number : String
  requester : String
  department : String
  status : String
  priority : String
  notes : String
  deriving DecidableEq

/-- controllers.py OrderController.update_order (lines 185-201): overwrites
the row, including `status`, with whatever the caller supplies. -/
def update_order (db : InvDB) (o : OrderInput) (now : Nat) : Bool × InvDB :=
  if o.id = 0 then (false, db)
  else
    (rowExists (fun r => r.id = o.id) db.orders,
     { db with orders := updateRows (fun r => r.id = o.id) (fun r =>
         { r with order_number := o.order_number, requester := o.requester,
                  department := o.department, status := o.status,
                  priority := o.priority, notes := o.notes,
                  updated_at := now }) db.orders })

/-- Claim-side helper: the material names an error message of complete_order
carries (the aggregated-error claim asks that every insufficient material be
named). -/
def errorNames : CompleteError → List String
  | .insufficientStock n _ _ => [n]
  | _ => []

/-- Claim-side helper: total quantity the completion transaction removes from
one material — the sum of the requested quantities of the order lines that
reference it. -/
def lineTotal : List OrderMaterialRow → Nat → Int
  | [], _ => 0
  | om :: rest, mid =>
    (if om.material_id = mid then om.quantity else 0) + lineTotal rest mid

end Inv

namespace Adc

/-- Row of the `adc` table (adc/repository.py init_adc_tables).
`lot_number` carries a UNIQUE constraint.  The REAL column `concentration`
and the specification values are exact rationals in this model. -/
structure AdcRow where
  id : Nat
  lot_number : String
  sample_id : String
  description : String
  concentration : ℚ
  owner : String
  storage_temp : String
  storage_position : String
  antibody : String
  linker_payload : String
  created_at : Nat
  updated_at : Nat
  deriving DecidableEq

/-- Row of the `adc_specs` table: one spec-lot (packaging specification value
plus vial count) owned by a sample. -/
structure ADCSpecRow where
  id : Nat
  adc_id : Nat
  spec_mg : ℚ
  quantity : Int
  created_at : Nat
  deriving DecidableEq

/-- Row of the `adc_outbound` table. -/
structure OutboundRow where
  id : Nat
  lot_number : String
  requester : String
  operator : String
  shipping_address : String
  shipping_date : Nat
  notes : String
  created_at : Nat
  deriving DecidableEq

/-- Row of the `adc_outbound_items` table. -/
structure OutboundItemRow where
  id : Nat
  outbound_id : Nat
  spec_mg : ℚ
  quantity : Int
  deriving DecidableEq

/-- Row of the `adc_inbound` table. -/
structure InboundRow where
  id : Nat
  lot_number : String
  operator : String
  owner : String
  storage_position : String
  storage_date : Nat
  notes : String
  created_at : Nat
  deriving DecidableEq

/-- Row of the `adc_inbound_items` table. -/
structure InboundItemRow where
  id : Nat
  inbound_id : Nat
  spec_mg : ℚ
  quantity : Int
  deriving DecidableEq

/-- The ADC database state: the six tables plus their auto-increment
counters (SQLite AUTOINCREMENT, one per table). -/
structure AdcDB where
  adcs : List AdcRow
  adc_specs : List ADCSpecRow
  adc_outbound : List OutboundRow
  adc_outbound_items : List OutboundItemRow
  adc_inbound : List InboundRow
  adc_inbound_items : List InboundItemRow
  next_adc_id : Nat
  next_spec_id : Nat
  next_outbound_id : Nat
  next_outbound_item_id : Nat
  next_inbound_id : Nat
  next_inbound_item_id : Nat
  deriving DecidableEq

/-- Stable insertion step for `ORDER BY spec_mg` (ascending). -/
def orderedInsertSpec (sp : ADCSpecRow) : List ADCSpecRow → List ADCSpecRow
  | [] => [sp]
  | b :: l => if sp.spec_mg ≤ b.spec_mg then sp :: b :: l else b :: orderedInsertSpec sp l

/-- A stable sort implementing `ORDER BY spec_mg` of get_specs_by_adc_id. -/
def sortSpecsByMg : List ADCSpecRow → List ADCSpecRow
  | [] => []
  | a :: l => orderedInsertSpec a (sortSpecsByMg l)

/-- Stable insertion step for `ORDER BY created_at DESC`. -/
def orderedInsertAdc (a : AdcRow) : List AdcRow → List AdcRow
  | [] => [a]
  | b :: l => if b.created_at ≤ a.created_at then a :: b :: l else b :: orderedInsertAdc a l

/-- A stable sort implementing `ORDER BY created_at DESC` of get_all_adcs. -/
def sortAdcsByCreatedDesc : List AdcRow → List AdcRow
  | [] => []
  | a :: l => orderedInsertAdc a (sortAdcsByCreatedDesc l)

/-- A raised sqlite3 exception (as opposed to a `(False, message)` return):
the only kind the modelled operations can raise is the IntegrityError of a
UNIQUE-constraint violation on insert. -/
inductive SqlError where
  | integrityError
  deriving DecidableEq

/-- The ADC dataclass fields a caller passes to create_adc/update_adc
(adc/models.py ADC).  The polymorphic spec entries (ADCSpec object or plain
dict) are normalised to (spec_mg, quantity) pairs, as both branches of the
source read exactly those two keys.  An `id` of 0 models Python's falsy
`adc.id`. -/
structure ADCInput where
  id : Nat
  lot_number : String
  sample_id : String
  description : String
  concentration : ℚ
  owner : String
  storage_temp : String
  storage_position : String
  antibody : String
  linker_payload : String
  specs : List (ℚ × Int)
  deriving DecidableEq

namespace ADCRepository

/-- adc/repository.py ADCRepository.create_adc: `INSERT INTO adc (...)`.
The UNIQUE constraint on lot_number makes the insert raise IntegrityError
when the lot number is already present; otherwise the new row id is
returned. -/
def create_adc (db : AdcDB) (inp : ADCInput) (now : Nat) : Except SqlError (Nat × AdcDB) :=
  if (findRow (fun a => a.lot_number = inp.lot_number) db.adcs).isSome then
    .error .integrityError
  else
    .ok (db.next_adc_id,
      { db with
          adcs := db.adcs ++ [⟨db.next_adc_id, inp.lot_number, inp.sample_id, inp.description,
            inp.concentration, inp.owner, inp.storage_temp, inp.storage_position,
            inp.antibody, inp.linker_payload, now, now⟩],
          next_adc_id := db.next_adc_id + 1 })

/-- adc/repository.py get_adc_by_id. -/
def get_adc_by_id (db : AdcDB) (adc_id : Nat) : Option AdcRow :=
  findRow (fun a => a.id = adc_id) db.adcs

/-- adc/repository.py get_adc_by_lot_number. -/
def get_adc_by_lot_number (db : AdcDB) (lot_number : String) : Option AdcRow :=
  findRow (fun a => a.lot_number = lot_number) db.adcs

/-- adc/repository.py get_all_adcs: `SELECT * FROM adc ORDER BY created_at DESC`. -/
def get_all_adcs (db : AdcDB) : List AdcRow :=
  sortAdcsByCreatedDesc db.adcs

/-- adc/repository.py add_spec: `INSERT INTO adc_specs (adc_id, spec_mg, quantity)`. -/
def add_spec (db : AdcDB) (adc_id : Nat) (spec_mg : ℚ) (quantity : Int) (now : Nat) :
    Nat × AdcDB :=
  (db.next_spec_id,
   { db with
       adc_specs := db.adc_specs ++ [⟨db.next_spec_id, adc_id, spec_mg, quantity, now⟩],
       next_spec_id := db.next_spec_id + 1 })

/-- adc/repository.py get_specs_by_adc_id:
`SELECT * FROM adc_specs WHERE adc_id = ? ORDER BY spec_mg`. -/
def get_specs_by_adc_id (db : AdcDB) (adc_id : Nat) : List ADCSpecRow :=
  sortSpecsByMg (selectRows (fun s => s.adc_id = adc_id) db.adc_specs)

/-- adc/repository.py update_adc: UPDATE of all entity columns plus
`updated_at=CURRENT_TIMESTAMP` WHERE id=?. -/
def update_adc (db : AdcDB) (inp : ADCInput) (now : Nat) : Bool × AdcDB :=
  (rowExists (fun a => a.id = inp.id) db.adcs,
   { db with adcs := updateRows (fun a => a.id = inp.id) (fun a =>
       { a with lot_number := inp.lot_number, sample_id := inp.sample_id,
                description := inp.description, concentration := inp.concentration,
                owner := inp.owner, storage_temp := inp.storage_temp,
                storage_position := inp.storage_position, antibody := inp.antibody,
                linker_payload := inp.linker_payload, updated_at := now }) db.adcs })

/-- adc/repository.py delete_adc: `DELETE FROM adc WHERE id = ?`; the
`ON DELETE CASCADE` foreign key (with `PRAGMA foreign_keys=ON`) also removes
the sample's spec-lots. -/
def delete_adc (db : AdcDB) (adc_id : Nat) : Bool × AdcDB :=
  (rowExists (fun a => a.id = adc_id) db.adcs,
   { db with adcs := deleteRows (fun a => a.id = adc_id) db.adcs,
             adc_specs := deleteRows (fun s => s.adc_id = adc_id) db.adc_specs })

/-- adc/repository.py update_spec: `UPDATE adc_specs SET spec_mg=?, quantity=? WHERE id=?`. -/
def update_spec (db : AdcDB) (spec_id : Nat) (spec_mg : ℚ) (quantity : Int) : Bool × AdcDB :=
  (rowExists (fun s => s.id = spec_id) db.adc_specs,
   { db with adc_specs := updateRows (fun s => s.id = spec_id) (fun s =>
       { s with spec_mg := spec_mg, quantity := quantity }) db.adc_specs })

/-- adc/repository.py update_spec_quantity: `UPDATE adc_specs SET quantity=? WHERE id=?`. -/
def update_spec_quantity (db : AdcDB) (spec_id : Nat) (quantity : Int) : Bool × AdcDB :=
  (rowExists (fun s => s.id = spec_id) db.adc_specs,
   { db with adc_specs := updateRows (fun s => s.id = spec_id) (fun s =>
       { s with quantity := quantity }) db.adc_specs })

/-- adc/repository.py delete_spec: `DELETE FROM adc_specs WHERE id = ?`. -/
def delete_spec (db : AdcDB) (spec_id : Nat) : Bool × AdcDB :=
  (rowExists (fun s => s.id = spec_id) db.adc_specs,
   { db with adc_specs := deleteRows (fun s => s.id = spec_id) db.adc_specs })

/-- adc/repository.py delete_specs_by_adc_id:
`DELETE FROM adc_specs WHERE adc_id = ?` (always reported successful). -/
def delete_specs_by_adc_id (db : AdcDB) (adc_id : Nat) : AdcDB :=
  { db with adc_specs := deleteRows (fun s => s.adc_id = adc_id) db.adc_specs }

/-- adc/repository.py create_outbound: `INSERT INTO adc_outbound (...)`,
returning the new record id. -/
def create_outbound (db : AdcDB) (lot_number requester operator shipping_address : String)
    (shipping_date : Nat) (notes : String) (now : Nat) : Nat × AdcDB :=
  (db.next_outbound_id,
   { db with
       adc_outbound := db.adc_outbound ++ [⟨db.next_outbound_id, lot_number, requester,
         operator, shipping_address, shipping_date, notes, now⟩],
       next_outbound_id := db.next_outbound_id + 1 })

/-- adc/repository.py add_outbound_item:
`INSERT INTO adc_outbound_items (outbound_id, spec_mg, quantity)`. -/
def add_outbound_item (db : AdcDB) (outbound_id : Nat) (spec_mg : ℚ) (quantity : Int) :
    Nat × AdcDB :=
  (db.next_outbound_item_id,
   { db with
       adc_outbound_items := db.adc_outbound_items ++
         [⟨db.next_outbound_item_id, outbound_id, spec_mg, quantity⟩],
       next_outbound_item_id := db.next_outbound_item_id + 1 })

/-- adc/repository.py create_inbound: `INSERT INTO adc_inbound (...)`. -/
def create_inbound (db : AdcDB) (lot_number operator owner storage_position : String)
    (storage_date : Nat) (notes : String) (now : Nat) : Nat × AdcDB :=
  (db.next_inbound_id,
   { db with
       adc_inbound := db.adc_inbound ++ [⟨db.next_inbound_id, lot_number, operator,
         owner, storage_position, storage_date, notes, now⟩],
       next_inbound_id := db.next_inbound_id + 1 })

/-- adc/repository.py add_inbound_item:
`INSERT INTO adc_inbound_items (inbound_id, spec_mg, quantity)`. -/
def add_inbound_item (db : AdcDB) (inbound_id : Nat) (spec_mg : ℚ) (quantity : Int) :
    Nat × AdcDB :=
  (db.next_inbound_item_id,
   { db with
       adc_inbound_items := db.adc_inbound_items ++
         [⟨db.next_inbound_item_id, inbound_id, spec_mg, quantity⟩],
       next_inbound_item_id := db.next_inbound_item_id + 1 })

/-- adc/repository.py get_spec_by_adc_and_mg:
`SELECT * FROM adc_specs WHERE adc_id = ? AND spec_mg = ?` — exact equality
on the specification value, first row in table order. -/
def get_spec_by_adc_and_mg (db : AdcDB) (adc_id : Nat) (spec_mg : ℚ) : Option ADCSpecRow :=
  findRow (fun s => s.adc_id = adc_id ∧ s.spec_mg = spec_mg) db.adc_specs

/-- adc/repository.py increase_spec_quantity:
`UPDATE adc_specs SET quantity = quantity + ? WHERE id = ?`. -/
def increase_spec_quantity (db : AdcDB) (spec_id : Nat) (delta : Int) : Bool × AdcDB :=
  (rowExists (fun s => s.id = spec_id) db.adc_specs,
   { db with adc_specs := updateRows (fun s => s.id = spec_id) (fun s =>
       { s with quantity := s.quantity + delta }) db.adc_specs })

/-- adc/repository.py decrease_spec_quantity: the guarded conditional
decrement `UPDATE adc_specs SET quantity = quantity - ? WHERE id = ? AND
quantity >= ?`. -/
def decrease_spec_quantity (db : AdcDB) (spec_id : Nat) (delta : Int) : Bool × AdcDB :=
  (rowExists (fun s => s.id = spec_id ∧ delta ≤ s.quantity) db.adc_specs,
   { db with adc_specs := updateRows (fun s => s.id = spec_id ∧ delta ≤ s.quantity) (fun s =>
       { s with quantity := s.quantity - delta }) db.adc_specs })

end ADCRepository

/-- The in-memory sample entity held by the controller cache: the sample row
with its spec-lots eagerly loaded (adc/models.py ADC with its `specs` list). -/
structure ADC where
  row : AdcRow
  specs : List ADCSpecRow
  deriving DecidableEq

/-- adc/controller.py ADCController state: the underlying database plus the
in-memory cache.  The id-keyed dict `_adc_cache` holds exactly the entities
of `_all_adcs_cache` keyed by their (unique) ids, so it is modelled by id
lookup on the one cached list. -/
structure ADCController where
  db : AdcDB
  all_adcs_cache : List ADC
  cache_initialized : Bool
  deriving DecidableEq

/-- The cache contents `_refresh_cache` builds: every sample from
get_all_adcs (created_at descending) with its specs from get_specs_by_adc_id
(spec_mg ascending). -/
def loadAdcs (db : AdcDB) : List ADC :=
  (ADCRepository.get_all_adcs db).map (fun a => ⟨a, ADCRepository.get_specs_by_adc_id db a.id⟩)

/-- adc/controller.py ADCController._refresh_cache: discard and reload the
whole cache from the store (`_cache_initialized` is not touched here). -/
def ADCController.refresh_cache (s : ADCController) : ADCController :=
  { s with all_adcs_cache := loadAdcs s.db }

/-- adc/controller.py ADCController._init_cache: refresh once on first use. -/
def ADCController.init_cache (s : ADCController) : ADCController :=
  if s.cache_initialized then s
  else { s.refresh_cache with cache_initialized := true }

/-- adc/controller.py ADCController.create_adc: repository insert (which
raises IntegrityError on a duplicate lot number — the controller does not
catch it), then one add_spec per supplied spec, then a cache refresh. -/
def ADCController.create_adc (s : ADCController) (adc : ADCInput) (now : Nat) :
    Except SqlError Nat × ADCController :=
  match ADCRepository.create_adc s.db adc now with
  | .error e => (.error e, s)
  | .ok (adc_id, db1) =>
    let db2 := adc.specs.foldl
      (fun d sp => (ADCRepository.add_spec d adc_id sp.1 sp.2 now).2) db1
    (.ok adc_id, ADCController.refresh_cache { s with db := db2 })

/-- adc/controller.py ADCController.get_adc: served from the cache. -/
def ADCController.get_adc (s : ADCController) (adc_id : Nat) :
    Option ADC × ADCController :=
  let s1 := s.init_cache
  (findRow (fun a => a.row.id = adc_id) s1.all_adcs_cache, s1)

/-- adc/controller.py ADCController.get_all_adcs: served from the cache. -/
def ADCController.get_all_adcs (s : ADCController) : List ADC × ADCController :=
  let s1 := s.init_cache
  (s1.all_adcs_cache, s1)

/-- adc/controller.py ADCController.get_adc_by_lot_number: a scan of the
cached list. -/
def ADCController.get_adc_by_lot_number (s : ADCController) (lot_number : String) :
    Option ADC × ADCController :=
  let s1 := s.init_cache
  (findRow (fun a => a.row.lot_number = lot_number) s1.all_adcs_cache, s1)

/-- The distinct error message templates returned by
adc/controller.py ADCController.update_adc. -/
inductive UpdateAdcError where
  /-- message template: ADC id must not be empty -/
  | emptyId
  /-- message template: ADC does not exist -/
  | notFound
  /-- message template: lot number already used by another record -/
  | lotTaken
  /-- message template: update failed -/
  | updateFailed
  deriving DecidableEq

/-- The mutation tail of update_adc, shared by the two lot-check branches. -/
def ADCController.update_adc_body (s : ADCController) (adc : ADCInput) (now : Nat) :
    Except UpdateAdcError Unit × ADCController :=
  let r := ADCRepository.update_adc s.db adc now
  if r.1 = false then (.error .updateFailed, { s with db := r.2 })
  else
    let db2 := ADCRepository.delete_specs_by_adc_id r.2 adc.id
    let db3 := adc.specs.foldl
      (fun d sp => (ADCRepository.add_spec d adc.id sp.1 sp.2 now).2) db2
    (.ok (), ADCController.refresh_cache { s with db := db3 })

/-- adc/controller.py ADCController.update_adc (lines 128-172): existence and
lot-uniqueness checks, entity update, wholesale spec replacement (delete all,
re-add), cache refresh. -/
def ADCController.update_adc (s : ADCController) (adc : ADCInput) (now : Nat) :
    Except UpdateAdcError Unit × ADCController :=
  if adc.id = 0 then (.error .emptyId, s)
  else
    match ADCRepository.get_adc_by_id s.db adc.id with
    | none => (.error .notFound, s)
    | some _ =>
      match ADCRepository.get_adc_by_lot_number s.db adc.lot_number with
      | some lot_check =>
        if lot_check.id ≠ adc.id then (.error .lotTaken, s)
        else ADCController.update_adc_body s adc now
      | none => ADCController.update_adc_body s adc now

/-- adc/controller.py ADCController.delete_adc: repository delete; refresh
only on success. -/
def ADCController.delete_adc (s : ADCController) (adc_id : Nat) : Bool × ADCController :=
  let r := ADCRepository.delete_adc s.db adc_id
  if r.1 then (true, ADCController.refresh_cache { s with db := r.2 })
  else (false, { s with db := r.2 })

/-- adc/controller.py ADCController.add_spec: repository insert plus refresh. -/
def ADCController.add_spec (s : ADCController) (adc_id : Nat) (spec_mg : ℚ) (quantity : Int)
    (now : Nat) : Nat × ADCController :=
  let r := ADCRepository.add_spec s.db adc_id spec_mg quantity now
  (r.1, ADCController.refresh_cache { s with db := r.2 })

/-- adc/controller.py ADCController.update_spec: refresh only on success. -/
def ADCController.update_spec (s : ADCController) (spec_id : Nat) (spec_mg : ℚ)
    (quantity : Int) : Bool × ADCController :=
  let r := ADCRepository.update_spec s.db spec_id spec_mg quantity
  if r.1 then (true, ADCController.refresh_cache { s with db := r.2 })
  else (false, { s with db := r.2 })

/-- adc/controller.py ADCController.update_spec_quantity: refresh only on
success. -/
def ADCController.update_spec_quantity (s : ADCController) (spec_id : Nat) (quantity : Int) :
    Bool × ADCController :=
  let r := ADCRepository.update_spec_quantity s.db spec_id quantity
  if r.1 then (true, ADCController.refresh_cache { s with db := r.2 })
  else (false, { s with db := r.2 })

/-- adc/controller.py ADCController.delete_spec: refresh only on success. -/
def ADCController.delete_spec (s : ADCController) (spec_id : Nat) : Bool × ADCController :=
  let r := ADCRepository.delete_spec s.db spec_id
  if r.1 then (true, ADCController.refresh_cache { s with db := r.2 })
  else (false, { s with db := r.2 })

/-- One requested movement line (adc/models.py ADCMovementItem, normalised
from the object-or-dict duality to the two fields both branches read). -/
structure MovementItem where
  spec_mg : ℚ
  quantity : Int
  deriving DecidableEq

/-- The fields of an outbound request (adc/models.py ADCOutbound) the
controller reads. -/
structure OutboundRequest where
  lot_number : String
  requester : String
  operator : String
  shipping_address : String
  notes : String
  items : List MovementItem
  deriving DecidableEq

/-- The fields of an inbound request (adc/models.py ADCInbound) the
controller reads. -/
structure InboundRequest where
  lot_number : String
  operator : String
  owner : String
  storage_position : String
  notes : String
  items : List MovementItem
  deriving DecidableEq

/-- The distinct error message templates returned by
adc/controller.py ADCController.create_outbound. -/
inductive OutboundError where
  /-- message template: lot number does not exist -/
  | lotNotFound (lot_number : String)
  /-- message template: specification does not exist -/
  | specNotFound (spec_mg : ℚ)
  /-- message template: specification has insufficient stock, current X,
  needed Y -/
  | insufficientStock (spec_mg : ℚ) (current required : Int)
  deriving DecidableEq

/-- The distinct error message templates returned by
adc/controller.py ADCController.create_inbound. -/
inductive InboundError where
  /-- message template: lot number does not exist -/
  | lotNotFound (lot_number : String)
  deriving DecidableEq

/-- The spec-lookup of the outbound validation loop: first spec in the cached
(spec_mg-ascending) list whose specification value is within the 0.001
tolerance of the requested one (controller lines 248-255). -/
def findSpecTol (spec_mg : ℚ) : List ADCSpecRow → Option ADCSpecRow
  | [] => none
  | sp :: rest =>
    if |sp.spec_mg - spec_mg| < 1/1000 then some sp else findSpecTol spec_mg rest

/-- The outbound validation pass over all requested lines (controller lines
242-262), run before any mutation; returns the first failure in line order. -/
def checkOutboundItems (specs : List ADCSpecRow) : List MovementItem → Option OutboundError
  | [] => none
  | item :: rest =>
    match findSpecTol item.spec_mg specs with
    | none => some (.specNotFound item.spec_mg)
    | some spec_found =>
      if spec_found.quantity < item.quantity then
        some (.insufficientStock item.spec_mg spec_found.quantity item.quantity)
      else checkOutboundItems specs rest

/-- The outbound mutation loop (controller lines 277-287): per line, insert
the item row, then look the spec-lot up by exact specification value and, if
found, apply the guarded decrement (a missing exact match is silently
skipped). -/
def outboundMutateItems (adc_id outbound_id : Nat) : AdcDB → List MovementItem → AdcDB
  | db, [] => db
  | db, item :: rest =>
    let db1 := (ADCRepository.add_outbound_item db outbound_id item.spec_mg item.quantity).2
    let db2 :=
      match ADCRepository.get_spec_by_adc_and_mg db1 adc_id item.spec_mg with
      | some spec_record => (ADCRepository.decrease_spec_quantity db1 spec_record.id item.quantity).2
      | none => db1
    outboundMutateItems adc_id outbound_id db2 rest

/-- adc/controller.py ADCController.create_outbound (lines 232-292). -/
def ADCController.create_outbound (s : ADCController) (outbound : OutboundRequest)
    (now : Nat) : Except OutboundError Nat × ADCController :=
  let s1 := s.init_cache
  match findRow (fun a => a.row.lot_number = outbound.lot_number) s1.all_adcs_cache with
  | none => (.error (.lotNotFound outbound.lot_number), s1)
  | some adc =>
    match checkOutboundItems adc.specs outbound.items with
    | some e => (.error e, s1)
    | none =>
      let r := ADCRepository.create_outbound s1.db outbound.lot_number outbound.requester
        outbound.operator outbound.shipping_address now outbound.notes now
      let db2 := outboundMutateItems adc.row.id r.1 r.2 outbound.items
      (.ok r.1, ADCController.refresh_cache { s1 with db := db2 })

/-- The inbound mutation loop (controller lines 342-356): per line, insert
the item row, then increment the exactly-matching spec-lot if it exists and
otherwise create a new spec-lot with the line's quantity. -/
def inboundMutateItems (adc_id inbound_id now : Nat) : AdcDB → List MovementItem → AdcDB
  | db, [] => db
  | db, item :: rest =>
    let db1 := (ADCRepository.add_inbound_item db inbound_id item.spec_mg item.quantity).2
    let db2 :=
      match ADCRepository.get_spec_by_adc_and_mg db1 adc_id item.spec_mg with
      | some spec_record => (ADCRepository.increase_spec_quantity db1 spec_record.id item.quantity).2
      | none => (ADCRepository.add_spec db1 adc_id item.spec_mg item.quantity now).2
    inboundMutateItems adc_id inbound_id now db2 rest

/-- adc/controller.py ADCController.create_inbound (lines 319-361). -/
def ADCController.create_inbound (s : ADCController) (inbound : InboundRequest)
    (now : Nat) : Except InboundError Nat × ADCController :=
  let s1 := s.init_cache
  match findRow (fun a => a.row.lot_number = inbound.lot_number) s1.all_adcs_cache with
  | none => (.error (.lotNotFound inbound.lot_number), s1)
  | some adc =>
    let r := ADCRepository.create_inbound s1.db inbound.lot_number inbound.operator
      inbound.owner inbound.storage_position now inbound.notes now
    let db2 := inboundMutateItems adc.row.id r.1 now r.2 inbound.items
    (.ok r.1, ADCController.refresh_cache { s1 with db := db2 })

/-- A ledger call: one applyInbound or applyOutbound request with its clock
value. -/
inductive LedgerCall where
  | inboundCall (req : InboundRequest) (now : Nat)
  | outboundCall (req : OutboundRequest) (now : Nat)
  deriving DecidableEq

/-- A sequence of ledger calls applied to the controller. -/
def runLedger : ADCController → List LedgerCall → ADCController
  | s, [] => s
  | s, .inboundCall req now :: rest => runLedger (s.create_inbound req now).2 rest
  | s, .outboundCall req now :: rest => runLedger (s.create_outbound req now).2 rest

/-- Claim-side invariant: no spec-lot's vial count is negative. -/
def NonNegSpecs (db : AdcDB) : Prop :=
  ∀ sp ∈ db.adc_specs, 0 ≤ sp.quantity

/-- Claim-side condition on a ledger call: all inbound line quantities are
non-negative (outbound lines need no restriction: their decrement is
guarded). -/
def LedgerCall.itemsNonNeg : LedgerCall → Prop
  | .inboundCall req _ => ∀ item ∈ req.items, 0 ≤ item.quantity
  | .outboundCall _ _ => True

/-- Claim-side coherence: the in-memory cache equals the view the store
defines. -/
def Coherent (s : ADCController) : Prop :=
  s.all_adcs_cache = loadAdcs s.db

/-- Claim-side per-line effect of applyInbound on the spec-lot table (state =
spec rows plus auto-increment counter): increment the first exactly-matching
spec-lot, or create a new spec-lot with exactly the line's quantity. -/
def inboundSpecStep (adc_id now : Nat) (st : List ADCSpecRow × Nat) (item : MovementItem) :
    List ADCSpecRow × Nat :=
  match findRow (fun s => s.adc_id = adc_id ∧ s.spec_mg = item.spec_mg) st.1 with
  | some sp =>
    (updateRows (fun s => s.id = sp.id) (fun s =>
       { s with quantity := s.quantity + item.quantity }) st.1, st.2)
  | none => (st.1 ++ [⟨st.2, adc_id, item.spec_mg, item.quantity, now⟩], st.2 + 1)

/-- Claim-side per-line effect of applyOutbound on the spec-lot table: the
guarded decrement of the first spec-lot whose specification value equals the
line's exactly; a line with no exactly-equal spec-lot changes nothing. -/
def outboundSpecStep (adc_id : Nat) (specs : List ADCSpecRow) (item : MovementItem) :
    List ADCSpecRow :=
  match findRow (fun s => s.adc_id = adc_id ∧ s.spec_mg = item.spec_mg) specs with
  | some sp =>
    updateRows (fun s => s.id = sp.id ∧ item.quantity ≤ s.quantity) (fun s =>
      { s with quantity := s.quantity - item.quantity }) specs
  | none => specs

/-- Claim-side: the reads get_adc and get_all_adcs, served from the cache,
equal the view the store contents define. -/
def ServesStore (s : ADCController) (adc_id : Nat) : Prop :=
  (s.get_all_adcs).1 = loadAdcs s.db ∧
  (s.get_adc adc_id).1 = findRow (fun a => a.row.id = adc_id) (loadAdcs s.db)

end Adc

/-! Concrete states used by the scenario theorems, counterexamples and
witnesses below. -/

namespace Inv

/-- A one-order database whose only order is already completed. -/
def c7db : InvDB :=
  ⟨[], [⟨1, "ORD-1", "r", "d", "completed", "normal", "", 0, 0, some 3⟩], [], []⟩

/-- Two materials A and B with quantity 1 each, and one pending order
requesting 2 of each — both lines are insufficient. -/
def c8db : InvDB :=
  ⟨[⟨1, "A", "c", "", 1, "u", 0, "", "", 0, 0⟩, ⟨2, "B", "c", "", 1, "u", 0, "", "", 0, 0⟩],
   [⟨1, "ORD-8", "r", "d", "pending", "normal", "", 0, 0, none⟩],
   [⟨1, 1, 1, 2, ""⟩, ⟨2, 1, 2, 2, ""⟩], []⟩

/-- One material with quantity 5 and one pending order requesting 3 of it. -/
def c2db : InvDB :=
  ⟨[⟨1, "A", "c", "", 5, "u", 0, "", "", 0, 0⟩],
   [⟨1, "ORD-2", "r", "d", "pending", "normal", "", 0, 0, none⟩],
   [⟨1, 1, 1, 3, ""⟩], []⟩

/-- One material, last modified at clock value 0 (the version token both
concurrent editors read). -/
def c3db : InvDB := ⟨[⟨1, "M", "c", "", 10, "u", 0, "", "", 0, 0⟩], [], [], []⟩

/-- First editor's submission: quantity 10 → 15. -/
def c3m1 : MaterialInput := ⟨1, "M", "c", "", 15, "u", 0, "", ""⟩

/-- Second editor's submission: quantity → 20, still carrying token 0. -/
def c3m2 : MaterialInput := ⟨1, "M", "c", "", 20, "u", 0, "", ""⟩

end Inv

namespace Adc

/-- A sample row with the given id and lot number and neutral text fields. -/
def sampleRow (id : Nat) (lot_number : String) : AdcRow :=
  ⟨id, lot_number, "S", "", 0, "", "", "", "", "", 0, 0⟩

/-- Scenario state: sample LOT-001 with one spec-lot (1.0 mg, 10 vials). -/
def c4db : AdcDB := ⟨[sampleRow 1 "LOT-001"], [⟨1, 1, 1, 10, 0⟩], [], [], [], [], 2, 2, 1, 1, 1, 1⟩

/-- Controller over `c4db` with a cold cache. -/
def c4state : ADCController := ⟨c4db, [], false⟩

/-- Outbound request: 4 vials at 1.0 mg of LOT-001. -/
def c4request : OutboundRequest := ⟨"LOT-001", "alice", "bob", "addr", "", [⟨1, 4⟩]⟩

/-- Sample LOT-N with a spec-lot at 1.0 mg holding 0 vials (non-negative). -/
def c1db : AdcDB := ⟨[sampleRow 1 "LOT-N"], [⟨1, 1, 1, 0, 0⟩], [], [], [], [], 2, 2, 1, 1, 1, 1⟩

/-- Controller over `c1db` with a cold cache. -/
def c1state : ADCController := ⟨c1db, [], false⟩

/-- An inbound request whose single line carries quantity -1. -/
def c1request : InboundRequest := ⟨"LOT-N", "op", "ow", "pos", "", [⟨1, -1⟩]⟩

/-- Sample LOT-W with a spec-lot (1.0 mg, 10 vials). -/
def c1wdb : AdcDB := ⟨[sampleRow 1 "LOT-W"], [⟨1, 1, 1, 10, 0⟩], [], [], [], [], 2, 2, 1, 1, 1, 1⟩

/-- Controller over `c1wdb` with a warm, coherent cache. -/
def c1wstate : ADCController := ⟨c1wdb, loadAdcs c1wdb, true⟩

/-- Outbound request for 11 vials at 1.0 mg — more than the 10 in stock. -/
def c1wrequest : OutboundRequest := ⟨"LOT-W", "r", "o", "a", "", [⟨1, 11⟩]⟩

/-- Sample LOT-002 with a 1.0 mg spec-lot only (no 2.0 mg spec-lot). -/
def c5db : AdcDB := ⟨[sampleRow 1 "LOT-002"], [⟨1, 1, 1, 10, 0⟩], [], [], [], [], 2, 2, 1, 1, 1, 1⟩

/-- Controller over `c5db` with a warm, coherent cache. -/
def c5state : ADCController := ⟨c5db, loadAdcs c5db, true⟩

/-- Inbound request: 5 vials at 2.0 mg of LOT-002. -/
def c5request : InboundRequest := ⟨"LOT-002", "op", "ow", "pos", "", [⟨2, 5⟩]⟩

/-- A one-sample database for the cache-coherence witness. -/
def c6db : AdcDB := ⟨[sampleRow 1 "LOT-006"], [], [], [], [], [], 2, 1, 1, 1, 1, 1⟩

/-- Controller over `c6db` with a cold cache. -/
def c6state : ADCController := ⟨c6db, [], false⟩

/-- A database already holding a sample with lot number LOT-X and one
spec-lot. -/
def c9db : AdcDB := ⟨[sampleRow 1 "LOT-X"], [⟨1, 1, 1, 5, 0⟩], [], [], [], [], 2, 2, 1, 1, 1, 1⟩

/-- Controller over `c9db` with a cold cache. -/
def c9state : ADCController := ⟨c9db, [], false⟩

/-- A second sample reusing the already-taken lot number LOT-X. -/
def c9input : ADCInput := ⟨0, "LOT-X", "S2", "", 0, "", "", "", "", "", [(1, 3)]⟩

/-- Sample LOT-T whose only spec-lot sits at 1.0005 mg (within the 0.001
tolerance of 1.0 mg but not exactly equal) with 10 vials. -/
def c10db : AdcDB :=
  ⟨[sampleRow 1 "LOT-T"], [⟨1, 1, 2001/2000, 10, 0⟩], [], [], [], [], 2, 2, 1, 1, 1, 1⟩

/-- Controller over `c10db` with a cold cache. -/
def c10state : ADCController := ⟨c10db, [], false⟩

/-- Controller over `c10db` with a warm, coherent cache. -/
def c10wstate : ADCController := ⟨c10db, loadAdcs c10db, true⟩

/-- Outbound request: 4 vials at exactly 1.0 mg of LOT-T. -/
def c10request : OutboundRequest := ⟨"LOT-T", "r", "o", "a", "", [⟨1, 4⟩]⟩

end Adc

/-! Generic lemmas about the SQL-row helpers. -/

theorem findRow_eq_none_iff {α : Type} (p : α → Prop) [DecidablePred p] (l : List α) :
    findRow p l = none ↔ ∀ a ∈ l, ¬ p a := by
  induction l with
  | nil => simp [findRow]
  | cons a l ih => by_cases h : p a <;> simp [findRow, h, ih]

theorem findRow_eq_some {α : Type} {p : α → Prop} [DecidablePred p] {l : List α} {a : α}
    (h : findRow p l = some a) : a ∈ l ∧ p a := by
  induction l with
  | nil => simp [findRow] at h
  | cons b l ih =>
    by_cases hb : p b
    · simp [findRow, hb] at h
      subst h
      exact ⟨List.mem_cons_self b l, hb⟩
    · simp [findRow, hb] at h
      exact ⟨List.mem_cons_of_mem b (ih h).1, (ih h).2⟩

theorem findRow_isSome_iff {α : Type} (p : α → Prop) [DecidablePred p] (l : List α) :
    (findRow p l).isSome = true ↔ ∃ a ∈ l, p a := by
  induction l with
  | nil => simp [findRow]
  | cons a l ih => by_cases h : p a <;> simp [findRow, h, ih]

theorem findRow_updateRows {α : Type} (p q : α → Prop) [DecidablePred p] [DecidablePred q]
    (f : α → α) (hf : ∀ a, p (f a) ↔ p a) (l : List α) :
    findRow p (updateRows q f l) = (findRow p l).map (fun a => if q a then f a else a) := by
  induction l with
  | nil => rfl
  | cons a l ih =>
    have hpa : p (if q a then f a else a) ↔ p a := by
      by_cases hq : q a <;> simp [hq, hf a]
    show findRow p ((if q a then f a else a) :: updateRows q f l) = _
    by_cases h : p a
    · unfold findRow
      rw [if_pos (hpa.mpr h), if_pos h]
      rfl
    · unfold findRow
      rw [if_neg (fun hh => h (hpa.mp hh)), if_neg h, ih]

theorem mem_updateRows {α : Type} {q : α → Prop} [DecidablePred q] {f : α → α} {l : List α}
    {x : α} : x ∈ updateRows q f l ↔ ∃ a ∈ l, x = if q a then f a else a := by
  simp only [updateRows, List.mem_map]
  constructor
  · rintro ⟨a, ha, rfl⟩
    exact ⟨a, ha, rfl⟩
  · rintro ⟨a, ha, rfl⟩
    exact ⟨a, ha, rfl⟩

theorem mem_selectRows {α : Type} (p : α → Prop) [DecidablePred p] (l : List α) (x : α) :
    x ∈ selectRows p l ↔ x ∈ l ∧ p x := by
  induction l with
  | nil => simp [selectRows]
  | cons a l ih =>
    by_cases h : p a
    · simp only [selectRows, if_pos h, List.mem_cons, ih]
      constructor
      · rintro (rfl | ⟨hx, hp⟩)
        · exact ⟨Or.inl rfl, h⟩
        · exact ⟨Or.inr hx, hp⟩
      · rintro ⟨rfl | hx, hp⟩
        · exact Or.inl rfl
        · exact Or.inr ⟨hx, hp⟩
    · simp only [selectRows, if_neg h, List.mem_cons, ih]
      constructor
      · rintro ⟨hx, hp⟩
        exact ⟨Or.inr hx, hp⟩
      · rintro ⟨rfl | hx, hp⟩
        · exact absurd hp h
        · exact ⟨hx, hp⟩

theorem listMapExt {α β : Type} (f g : α → β) (h : ∀ a, f a = g a) :
    ∀ l : List α, l.map f = l.map g := by
  intro l
  induction l with
  | nil => rfl
  | cons a l ih => simp [h a, ih]

namespace Inv

/-- Claim C7, counterexample: the order of `c7db` is completed, yet
cancel_order succeeds and rewrites its status to cancelled — a core
operation changes the status of a completed order, so completed is not
terminal. -/
theorem claim_C7_counterexample :
    (findRow (fun o => o.id = 1) c7db.orders).map (fun o => o.status) = some "completed" ∧
    cancel_order c7db 1 9 =
      (true, ⟨[], [⟨1, "ORD-1", "r", "d", "cancelled", "normal", "", 0, 9, some 3⟩], [], []⟩) := by
  constructor
  · decide
  · decide

/-- Claim C7 (amended): complete_order rejects an order that is already
completed (resp. cancelled) with the dedicated error and leaves the database
unchanged; hence completeOrder itself never changes a completed order and
never sets completed_at again.  (The original claim is false: cancel_order
and update_order carry no status precondition and do overwrite a completed
order's status, see the counterexample.) -/
theorem claim_C7_theorem (db : InvDB) (order_id now : Nat) (o : OrderRow)
    (hf : findRow (fun r => r.id = order_id) db.orders = some o) :
    (o.status = OrderStatus.COMPLETED →
       complete_order db order_id now = (.error .alreadyCompleted, db)) ∧
    (o.status = OrderStatus.CANCELLED →
       complete_order db order_id now = (.error .alreadyCancelled, db)) := by
  constructor <;> intro h <;>
    simp [complete_order, hf, h, OrderStatus.COMPLETED, OrderStatus.CANCELLED]

/-- Claim C7, witness: the amended theorem applied to the concrete completed
order of `c7db`. -/
theorem claim_C7_witness :
    complete_order c7db 1 9 = (.error .alreadyCompleted, c7db) :=
  (claim_C7_theorem c7db 1 9 ⟨1, "ORD-1", "r", "d", "completed", "normal", "", 0, 0, some 3⟩
    (by decide)).1 rfl

/-- Stock-check helper: when every line before `om` is sufficient and `om`
itself is insufficient, the precondition loop stops at `om` and reports that
one material. -/
theorem checkStock_first_insufficient (db : InvDB) (pre : List OrderMaterialRow)
    (om : OrderMaterialRow) (post : List OrderMaterialRow) (m : MaterialRow)
    (hpre : ∀ p ∈ pre, ∃ mp, get_material db p.material_id = some mp ∧ p.quantity ≤ mp.quantity)
    (hm : get_material db om.material_id = some m) (hlt : m.quantity < om.quantity) :
    checkStock db (pre ++ om :: post) =
      some (.insufficientStock m.name om.quantity m.quantity) := by
  induction pre with
  | nil => simp [checkStock, hm, hlt]
  | cons p pre ih =>
    obtain ⟨mp, hmp, hle⟩ := hpre p (List.mem_cons_self p pre)
    have hnotlt : ¬ mp.quantity < p.quantity := not_lt.mpr hle
    simp [checkStock, hmp, hnotlt,
      ih (fun x hx => hpre x (List.mem_cons_of_mem p hx))]

/-- Claim C8 (amended): when the stock precondition fails, the returned
error names exactly the first insufficient material in line order, with its
required and current quantities — not every insufficient material.  (The
original claim is false, see the counterexample: the loop returns on the
first failure.) -/
theorem claim_C8_theorem (db : InvDB) (order_id now : Nat) (o : OrderRow)
    (pre : List OrderMaterialRow) (om : OrderMaterialRow) (post : List OrderMaterialRow)
    (m : MaterialRow)
    (hf : findRow (fun r => r.id = order_id) db.orders = some o)
    (h1 : o.status ≠ OrderStatus.COMPLETED) (h2 : o.status ≠ OrderStatus.CANCELLED)
    (hsplit : get_order_materials db order_id = pre ++ om :: post)
    (hpre : ∀ p ∈ pre, ∃ mp, get_material db p.material_id = some mp ∧ p.quantity ≤ mp.quantity)
    (hm : get_material db om.material_id = some m) (hlt : m.quantity < om.quantity) :
    complete_order db order_id now =
      (.error (.insufficientStock m.name om.quantity m.quantity), db) := by
  have hcs := checkStock_first_insufficient db pre om post m hpre hm hlt
  simp [complete_order, hf, h1, h2, hsplit, hcs]

/-- Claim C8, counterexample: in `c8db` both materials A and B of the order
are insufficient, yet the returned error names only A — the error does not
name every insufficient material. -/
theorem claim_C8_counterexample :
    (∃ m, get_material c8db 1 = some m ∧ m.name = "A" ∧ m.quantity < 2) ∧
    (∃ m, get_material c8db 2 = some m ∧ m.name = "B" ∧ m.quantity < 2) ∧
    complete_order c8db 1 9 = (.error (.insufficientStock "A" 2 1), c8db) ∧
    "B" ∉ errorNames (.insufficientStock "A" 2 1) := by
  refine ⟨⟨⟨1, "A", "c", "", 1, "u", 0, "", "", 0, 0⟩, by decide, by decide, by decide⟩,
    ⟨⟨2, "B", "c", "", 1, "u", 0, "", "", 0, 0⟩, by decide, by decide, by decide⟩, ?_, by decide⟩
  decide

/-- Claim C8, witness: the amended theorem applied to `c8db` (first line
insufficient, empty sufficient prefix). -/
theorem claim_C8_witness :
    complete_order c8db 1 9 = (.error (.insufficientStock "A" 2 1), c8db) :=
  claim_C8_theorem c8db 1 9 ⟨1, "ORD-8", "r", "d", "pending", "normal", "", 0, 0, none⟩
    [] ⟨1, 1, 1, 2, ""⟩ [⟨2, 1, 2, 2, ""⟩] ⟨1, "A", "c", "", 1, "u", 0, "", "", 0, 0⟩
    (by decide) (by decide) (by decide) (by decide)
    (by intro p hp; exact absurd hp (List.not_mem_nil p)) (by decide) (by decide)

end Inv

namespace Adc

/-- Claim C9 (amended): creating a sample whose lot number is already used
fails by raising the store's uniqueness-violation IntegrityError — an
uncaught exception propagating to the caller, not a DuplicateKey typed
return value — and leaves the whole state (samples, spec-lots, cache)
unchanged. -/
theorem claim_C9_theorem (s : ADCController) (inp : ADCInput) (now : Nat)
    (h : ∃ a ∈ s.db.adcs, a.lot_number = inp.lot_number) :
    s.create_adc inp now = (.error .integrityError, s) := by
  have hs : (findRow (fun a => a.lot_number = inp.lot_number) s.db.adcs).isSome = true :=
    (findRow_isSome_iff _ _).mpr h
  simp [ADCController.create_adc, ADCRepository.create_adc, hs]

/-- Claim C9, counterexample: creating a second sample with the taken lot
number LOT-X ends in the raised IntegrityError (the model's exception
channel), not in a returned DuplicateKey typed error; the data is untouched.
This falsifies the claim's assertion that the failure is a typed error
returned to the caller and never an uncaught exception. -/
theorem claim_C9_counterexample :
    c9state.create_adc c9input 5 = (.error .integrityError, c9state) ∧
    (c9state.create_adc c9input 5).2.db = c9db := by
  constructor
  · simp [c9state, c9db, c9input, sampleRow, ADCController.create_adc,
      ADCRepository.create_adc, findRow]
  · simp [c9state, c9db, c9input, sampleRow, ADCController.create_adc,
      ADCRepository.create_adc, findRow]

/-- Claim C9, witness: the amended theorem applied to the concrete duplicate
creation over `c9db`. -/
theorem claim_C9_witness :
    c9state.create_adc c9input 5 = (.error .integrityError, c9state) :=
  claim_C9_theorem c9state c9input 5
    ⟨sampleRow 1 "LOT-X", by simp [c9state, c9db], rfl⟩

/-- Claim C4: with sample LOT-001 holding a 1.0 mg spec-lot of 10 vials, an
outbound of 4 vials at 1.0 mg succeeds, the spec-lot drops to 6 vials, and
exactly one outbound record with exactly one line item (1.0, 4) is
created. -/
theorem claim_C4_theorem :
    (c4state.create_outbound c4request 7).1 = .ok 1 ∧
    (c4state.create_outbound c4request 7).2.db.adc_specs = [⟨1, 1, 1, 6, 0⟩] ∧
    (c4state.create_outbound c4request 7).2.db.adc_outbound =
      [⟨1, "LOT-001", "alice", "bob", "addr", 7, "", 7⟩] ∧
    (c4state.create_outbound c4request 7).2.db.adc_outbound_items = [⟨1, 1, 1, 4⟩] := by
  norm_num [c4state, c4db, c4request, sampleRow, ADCController.create_outbound,
    ADCController.init_cache, ADCController.refresh_cache, loadAdcs,
    ADCRepository.get_all_adcs, sortAdcsByCreatedDesc, orderedInsertAdc,
    ADCRepository.get_specs_by_adc_id, sortSpecsByMg, orderedInsertSpec, selectRows,
    findRow, checkOutboundItems, findSpecTol, ADCRepository.create_outbound,
    outboundMutateItems, ADCRepository.add_outbound_item,
    ADCRepository.get_spec_by_adc_and_mg, ADCRepository.decrease_spec_quantity,
    rowExists, updateRows, abs_lt]

/-- Claim C10, counterexample: sample LOT-T has one spec-lot at 1.0005 mg
with 10 vials; an outbound line at exactly 1.0 mg passes validation against
that spec-lot (|1.0005 - 1.0| < 0.001) and the outbound succeeds and records
its line item, yet no spec-lot is decremented: the exact-equality lookup of
the mutation phase finds no spec-lot at 1.0 mg, so the line of a successful
outbound causes no decrement at all. -/
theorem claim_C10_counterexample :
    (c10state.create_outbound c10request 7).1 = .ok 1 ∧
    (c10state.create_outbound c10request 7).2.db.adc_outbound_items = [⟨1, 1, 1, 4⟩] ∧
    (c10state.create_outbound c10request 7).2.db.adc_specs =
      [⟨1, 1, 2001/2000, 10, 0⟩] := by
  norm_num [c10state, c10db, c10request, sampleRow, ADCController.create_outbound,
    ADCController.init_cache, ADCController.refresh_cache, loadAdcs,
    ADCRepository.get_all_adcs, sortAdcsByCreatedDesc, orderedInsertAdc,
    ADCRepository.get_specs_by_adc_id, sortSpecsByMg, orderedInsertSpec, selectRows,
    findRow, checkOutboundItems, findSpecTol, ADCRepository.create_outbound,
    outboundMutateItems, ADCRepository.add_outbound_item,
    ADCRepository.get_spec_by_adc_and_mg, ADCRepository.decrease_spec_quantity,
    rowExists, updateRows, abs_lt]

/-! Cache and sort lemmas for the ADC controller. -/

theorem adc_init_cache_db (s : ADCController) : s.init_cache.db = s.db := by
  unfold ADCController.init_cache ADCController.refresh_cache
  split <;> rfl

theorem adc_init_cache_of_initialized {s : ADCController} (h : s.cache_initialized = true) :
    s.init_cache = s := by
  simp [ADCController.init_cache, h]

theorem adc_coherent_refresh (s : ADCController) : Coherent s.refresh_cache := rfl

theorem adc_serves_of_coherent {s : ADCController} (h : Coherent s) (adc_id : Nat) :
    ServesStore s adc_id := by
  unfold Coherent at h
  by_cases hi : s.cache_initialized <;>
    constructor <;>
      simp [ServesStore, ADCController.get_all_adcs, ADCController.get_adc,
        ADCController.init_cache, ADCController.refresh_cache, hi, h]

theorem adc_mem_orderedInsertAdc (a x : AdcRow) (l : List AdcRow) :
    x ∈ orderedInsertAdc a l ↔ x = a ∨ x ∈ l := by
  induction l with
  | nil => simp [orderedInsertAdc]
  | cons b l ih =>
    unfold orderedInsertAdc
    split
    · simp
    · simp only [List.mem_cons, ih]
      tauto

theorem adc_mem_sortAdcsByCreatedDesc (x : AdcRow) (l : List AdcRow) :
    x ∈ sortAdcsByCreatedDesc l ↔ x ∈ l := by
  induction l with
  | nil => simp [sortAdcsByCreatedDesc]
  | cons a l ih =>
    simp [sortAdcsByCreatedDesc, adc_mem_orderedInsertAdc, ih]

theorem adc_findRow_lot_loadAdcs (db : AdcDB) (lot : String) :
    findRow (fun a => a.row.lot_number = lot) (loadAdcs db) = none ↔
      ∀ a ∈ db.adcs, a.lot_number ≠ lot := by
  rw [findRow_eq_none_iff]
  unfold loadAdcs ADCRepository.get_all_adcs
  constructor
  · intro h a ha hlot
    exact h ⟨a, ADCRepository.get_specs_by_adc_id db a.id⟩
      (List.mem_map_of_mem _ ((adc_mem_sortAdcsByCreatedDesc a db.adcs).mpr ha)) hlot
  · intro h x hx hlot
    obtain ⟨a, ha, rfl⟩ := List.mem_map.mp hx
    exact h a ((adc_mem_sortAdcsByCreatedDesc a db.adcs).mp ha) hlot

/-! Projection of the ledger mutation loops onto the spec-lot table. -/

theorem adc_outboundMutateItems_specs (adc_id outbound_id : Nat) :
    ∀ (items : List MovementItem) (db : AdcDB),
      (outboundMutateItems adc_id outbound_id db items).adc_specs =
        items.foldl (outboundSpecStep adc_id) db.adc_specs := by
  intro items
  induction items with
  | nil => intro db; rfl
  | cons item rest ih =>
    intro db
    cases hfind : findRow (fun s => s.adc_id = adc_id ∧ s.spec_mg = item.spec_mg)
        db.adc_specs with
    | none =>
      have h1 : ADCRepository.get_spec_by_adc_and_mg
          (ADCRepository.add_outbound_item db outbound_id item.spec_mg item.quantity).2
          adc_id item.spec_mg = none := hfind
      simp only [outboundMutateItems, h1]
      rw [ih]
      simp only [List.foldl, outboundSpecStep, hfind]
      rfl
    | some sp =>
      have h1 : ADCRepository.get_spec_by_adc_and_mg
          (ADCRepository.add_outbound_item db outbound_id item.spec_mg item.quantity).2
          adc_id item.spec_mg = some sp := hfind
      simp only [outboundMutateItems, h1]
      rw [ih]
      simp only [List.foldl, outboundSpecStep, hfind]
      rfl

theorem adc_inboundMutateItems_specs (adc_id inbound_id now : Nat) :
    ∀ (items : List MovementItem) (db : AdcDB),
      ((inboundMutateItems adc_id inbound_id now db items).adc_specs,
       (inboundMutateItems adc_id inbound_id now db items).next_spec_id) =
        items.foldl (inboundSpecStep adc_id now) (db.adc_specs, db.next_spec_id) := by
  intro items
  induction items with
  | nil => intro db; rfl
  | cons item rest ih =>
    intro db
    cases hfind : findRow (fun s => s.adc_id = adc_id ∧ s.spec_mg = item.spec_mg)
        db.adc_specs with
    | none =>
      have h1 : ADCRepository.get_spec_by_adc_and_mg
          (ADCRepository.add_inbound_item db inbound_id item.spec_mg item.quantity).2
          adc_id item.spec_mg = none := hfind
      simp only [inboundMutateItems, h1]
      rw [ih]
      simp only [List.foldl, inboundSpecStep, hfind]
      rfl
    | some sp =>
      have h1 : ADCRepository.get_spec_by_adc_and_mg
          (ADCRepository.add_inbound_item db inbound_id item.spec_mg item.quantity).2
          adc_id item.spec_mg = some sp := hfind
      simp only [inboundMutateItems, h1]
      rw [ih]
      simp only [List.foldl, inboundSpecStep, hfind]
      rfl

/-- Claim C10 (amended): for a request whose lines all pass validation, the
spec-lot table after the outbound equals the per-line fold of the exact-match
guarded decrement: a line decrements (at most) the first spec-lot whose
specification value equals the line's exactly, and a line whose validated
spec-lot matches only within the 0.001 tolerance — with no exactly-equal
spec-lot present — causes no decrement at all.  (The original claim is false,
see the counterexample: the validated spec-lot and the decremented spec-lot
are found by different comparisons, and a line need not cause any
decrement.) -/
theorem claim_C10_theorem (s : ADCController) (outbound : OutboundRequest) (now : Nat)
    (adc : ADC)
    (hinit : s.cache_initialized = true)
    (hfind : findRow (fun a => a.row.lot_number = outbound.lot_number)
      s.all_adcs_cache = some adc)
    (hchk : checkOutboundItems adc.specs outbound.items = none) :
    (∃ s2, s.create_outbound outbound now = (.ok s.db.next_outbound_id, s2) ∧
       s2.db.adc_specs = outbound.items.foldl (outboundSpecStep adc.row.id) s.db.adc_specs) ∧
    (∀ specs item,
       findRow (fun sp => sp.adc_id = adc.row.id ∧ sp.spec_mg = item.spec_mg) specs = none →
       outboundSpecStep adc.row.id specs item = specs) ∧
    (∀ specs item sp,
       findRow (fun sp0 => sp0.adc_id = adc.row.id ∧ sp0.spec_mg = item.spec_mg) specs = some sp →
       outboundSpecStep adc.row.id specs item =
         updateRows (fun s0 => s0.id = sp.id ∧ item.quantity ≤ s0.quantity) (fun s0 =>
           { s0 with quantity := s0.quantity - item.quantity }) specs) := by
  have hs1 : s.init_cache = s := adc_init_cache_of_initialized hinit
  refine ⟨⟨ADCController.refresh_cache
      { s with db := (outboundMutateItems adc.row.id s.db.next_outbound_id
          (ADCRepository.create_outbound s.db outbound.lot_number outbound.requester
            outbound.operator outbound.shipping_address now outbound.notes now).2
          outbound.items) }, ?_, ?_⟩, ?_, ?_⟩
  · simp [ADCController.create_outbound, hs1, hfind, hchk, ADCRepository.create_outbound]
  · show (outboundMutateItems adc.row.id _ _ outbound.items).adc_specs = _
    rw [adc_outboundMutateItems_specs]
    rfl
  · intro specs item h
    simp [outboundSpecStep, h]
  · intro specs item sp h
    simp [outboundSpecStep, h]

/-- Claim C10, witness: the amended theorem applied to the warm-cache state
over `c10db`; the tolerance-matched line leaves the spec-lot table
unchanged. -/
theorem claim_C10_witness :
    ∃ s2, c10wstate.create_outbound c10request 9 = (.ok 1, s2) ∧
      s2.db.adc_specs = [⟨1, 1, 2001/2000, 10, 0⟩] := by
  obtain ⟨s2, h1, h2⟩ :=
    (claim_C10_theorem c10wstate c10request 9
      ⟨sampleRow 1 "LOT-T", [⟨1, 1, 2001/2000, 10, 0⟩]⟩ rfl
      (by norm_num [c10wstate, c10db, c10request, loadAdcs, ADCRepository.get_all_adcs,
        sortAdcsByCreatedDesc, orderedInsertAdc, ADCRepository.get_specs_by_adc_id,
        sortSpecsByMg, orderedInsertSpec, selectRows, findRow, sampleRow])
      (by norm_num [c10request, checkOutboundItems, findSpecTol, abs_lt])).1
  refine ⟨s2, h1, ?_⟩
  rw [h2]
  norm_num [c10wstate, c10db, c10request, sampleRow, outboundSpecStep, findRow, List.foldl]

/-- Claim C5: applyInbound fails (with the lot-not-found error) exactly when
no sample carries the given lot number, and then changes nothing; otherwise
it succeeds, and its effect on the spec-lot table is the per-line fold that
increments the spec-lot exactly matching the line's specification value, or
creates a new spec-lot at that value with exactly the line's quantity when
none exists. -/
theorem claim_C5_theorem (s : ADCController) (inbound : InboundRequest) (now : Nat)
    (hinit : s.cache_initialized = true) (hco : Coherent s) :
    ((s.create_inbound inbound now).1 = .error (.lotNotFound inbound.lot_number) ↔
       ∀ a ∈ s.db.adcs, a.lot_number ≠ inbound.lot_number) ∧
    ((s.create_inbound inbound now).1 = .error (.lotNotFound inbound.lot_number) →
       (s.create_inbound inbound now).2 = s) ∧
    (∀ adc, findRow (fun a => a.row.lot_number = inbound.lot_number)
        s.all_adcs_cache = some adc →
       ∃ s2, s.create_inbound inbound now = (.ok s.db.next_inbound_id, s2) ∧
         (s2.db.adc_specs, s2.db.next_spec_id) =
           inbound.items.foldl (inboundSpecStep adc.row.id now)
             (s.db.adc_specs, s.db.next_spec_id)) := by
  have hs1 : s.init_cache = s := adc_init_cache_of_initialized hinit
  unfold Coherent at hco
  cases hfind : findRow (fun a => a.row.lot_number = inbound.lot_number) s.all_adcs_cache with
  | none =>
    have hnone : ∀ a ∈ s.db.adcs, a.lot_number ≠ inbound.lot_number :=
      (adc_findRow_lot_loadAdcs s.db inbound.lot_number).mp (by rw [← hco]; exact hfind)
    refine ⟨?_, ?_, ?_⟩
    · simp [ADCController.create_inbound, hs1, hfind]
      exact hnone
    · intro _
      simp [ADCController.create_inbound, hs1, hfind]
    · intro adc hadc
      exact Option.noConfusion hadc
  | some adc0 =>
    have h2 := findRow_eq_some (show findRow (fun a => a.row.lot_number = inbound.lot_number)
      (loadAdcs s.db) = some adc0 by rw [← hco]; exact hfind)
    have hmem : ∃ a ∈ s.db.adcs, a.lot_number = inbound.lot_number := by
      obtain ⟨hmem0, hlot0⟩ := h2
      unfold loadAdcs at hmem0
      obtain ⟨a, ha, rfl⟩ := List.mem_map.mp hmem0
      unfold ADCRepository.get_all_adcs at ha
      exact ⟨a, (adc_mem_sortAdcsByCreatedDesc a s.db.adcs).mp ha, hlot0⟩
    have hok : (s.create_inbound inbound now).1 = .ok s.db.next_inbound_id := by
      simp [ADCController.create_inbound, hs1, hfind, ADCRepository.create_inbound]
    refine ⟨?_, ?_, ?_⟩
    · constructor
      · intro habs
        rw [hok] at habs
        cases habs
      · intro hall
        obtain ⟨a, ha, hlot⟩ := hmem
        exact absurd hlot (hall a ha)
    · intro habs
      rw [hok] at habs
      cases habs
    · intro adc hadc
      injection hadc with h
      subst h
      refine ⟨ADCController.refresh_cache
          { s with db := (inboundMutateItems adc0.row.id s.db.next_inbound_id now
              (ADCRepository.create_inbound s.db inbound.lot_number inbound.operator
                inbound.owner inbound.storage_position now inbound.notes now).2
              inbound.items) }, ?_, ?_⟩
      · simp [ADCController.create_inbound, hs1, hfind, ADCRepository.create_inbound]
      · show ((inboundMutateItems adc0.row.id _ now _ inbound.items).adc_specs,
          (inboundMutateItems adc0.row.id _ now _ inbound.items).next_spec_id) = _
        rw [adc_inboundMutateItems_specs]
        rfl

/-- Claim C5, witness: the theorem applied to the spec scenario — sample
LOT-002 with no 2.0 mg spec-lot; an inbound of 5 vials at 2.0 mg succeeds
and creates the new spec-lot (2.0, 5). -/
theorem claim_C5_witness :
    ∃ s2, c5state.create_inbound c5request 7 = (.ok 1, s2) ∧
      (s2.db.adc_specs, s2.db.next_spec_id) =
        ([⟨1, 1, 1, 10, 0⟩, ⟨2, 1, 2, 5, 7⟩], 3) := by
  obtain ⟨s2, h1, h2⟩ := (claim_C5_theorem c5state c5request 7 rfl rfl).2.2
    ⟨sampleRow 1 "LOT-002", [⟨1, 1, 1, 10, 0⟩]⟩
    (by norm_num [c5state, c5db, c5request, loadAdcs, ADCRepository.get_all_adcs,
      sortAdcsByCreatedDesc, orderedInsertAdc, ADCRepository.get_specs_by_adc_id,
      sortSpecsByMg, orderedInsertSpec, selectRows, findRow, sampleRow])
  refine ⟨s2, h1, ?_⟩
  rw [h2]
  norm_num [c5state, c5db, c5request, sampleRow, inboundSpecStep, findRow, List.foldl,
    updateRows]

/-! Non-negativity preservation for the stock ledger. -/

theorem adc_nonneg_decrease (db : AdcDB) (spec_id : Nat) (delta : Int)
    (h : NonNegSpecs db) :
    NonNegSpecs (ADCRepository.decrease_spec_quantity db spec_id delta).2 := by
  intro sp hsp
  have hsp2 : sp ∈ updateRows (fun s => s.id = spec_id ∧ delta ≤ s.quantity) (fun s =>
      { s with quantity := s.quantity - delta }) db.adc_specs := hsp
  rcases mem_updateRows.mp hsp2 with ⟨a, ha, rfl⟩
  by_cases hc : a.id = spec_id ∧ delta ≤ a.quantity
  · rw [if_pos hc]
    show 0 ≤ a.quantity - delta
    obtain ⟨-, h2⟩ := hc
    omega
  · rw [if_neg hc]
    exact h a ha

theorem adc_nonneg_increase (db : AdcDB) (spec_id : Nat) (delta : Int)
    (hd : 0 ≤ delta) (h : NonNegSpecs db) :
    NonNegSpecs (ADCRepository.increase_spec_quantity db spec_id delta).2 := by
  intro sp hsp
  have hsp2 : sp ∈ updateRows (fun s => s.id = spec_id) (fun s =>
      { s with quantity := s.quantity + delta }) db.adc_specs := hsp
  rcases mem_updateRows.mp hsp2 with ⟨a, ha, rfl⟩
  by_cases hc : a.id = spec_id
  · rw [if_pos hc]
    show 0 ≤ a.quantity + delta
    have := h a ha
    omega
  · rw [if_neg hc]
    exact h a ha

theorem adc_nonneg_add_spec (db : AdcDB) (adc_id : Nat) (spec_mg : ℚ) (quantity : Int)
    (now : Nat) (hq : 0 ≤ quantity) (h : NonNegSpecs db) :
    NonNegSpecs (ADCRepository.add_spec db adc_id spec_mg quantity now).2 := by
  intro sp hsp
  have hsp2 : sp ∈ db.adc_specs ++ [⟨db.next_spec_id, adc_id, spec_mg, quantity, now⟩] := hsp
  rcases List.mem_append.mp hsp2 with hmem | hmem
  · exact h sp hmem
  · have : sp = ⟨db.next_spec_id, adc_id, spec_mg, quantity, now⟩ := by simpa using hmem
    rw [this]
    exact hq

theorem adc_nonneg_outboundMutate (adc_id outbound_id : Nat) :
    ∀ (items : List MovementItem) (db : AdcDB), NonNegSpecs db →
      NonNegSpecs (outboundMutateItems adc_id outbound_id db items) := by
  intro items
  induction items with
  | nil => intro db h; exact h
  | cons item rest ih =>
    intro db h
    have h1 : NonNegSpecs
        (ADCRepository.add_outbound_item db outbound_id item.spec_mg item.quantity).2 := h
    cases hfind : ADCRepository.get_spec_by_adc_and_mg
        (ADCRepository.add_outbound_item db outbound_id item.spec_mg item.quantity).2
        adc_id item.spec_mg with
    | none =>
      simp only [outboundMutateItems, hfind]
      exact ih _ h1
    | some sp =>
      simp only [outboundMutateItems, hfind]
      exact ih _ (adc_nonneg_decrease _ _ _ h1)

theorem adc_nonneg_inboundMutate (adc_id inbound_id now : Nat) :
    ∀ (items : List MovementItem) (db : AdcDB),
      (∀ item ∈ items, 0 ≤ item.quantity) → NonNegSpecs db →
      NonNegSpecs (inboundMutateItems adc_id inbound_id now db items) := by
  intro items
  induction items with
  | nil => intro db _ h; exact h
  | cons item rest ih =>
    intro db hq h
    have h1 : NonNegSpecs
        (ADCRepository.add_inbound_item db inbound_id item.spec_mg item.quantity).2 := h
    have hqr : ∀ i ∈ rest, 0 ≤ i.quantity := fun i hi => hq i (List.mem_cons_of_mem item hi)
    have hq0 : 0 ≤ item.quantity := hq item (List.mem_cons_self item rest)
    cases hfind : ADCRepository.get_spec_by_adc_and_mg
        (ADCRepository.add_inbound_item db inbound_id item.spec_mg item.quantity).2
        adc_id item.spec_mg with
    | none =>
      simp only [inboundMutateItems, hfind]
      exact ih _ hqr (adc_nonneg_add_spec _ _ _ _ _ hq0 h1)
    | some sp =>
      simp only [inboundMutateItems, hfind]
      exact ih _ hqr (adc_nonneg_increase _ _ _ hq0 h1)

theorem adc_nonneg_create_outbound (s : ADCController) (req : OutboundRequest) (now : Nat)
    (h : NonNegSpecs s.db) : NonNegSpecs (s.create_outbound req now).2.db := by
  have hdb : s.init_cache.db = s.db := adc_init_cache_db s
  have h1 : NonNegSpecs s.init_cache.db := by rw [hdb]; exact h
  cases hfind : findRow (fun a => a.row.lot_number = req.lot_number)
      s.init_cache.all_adcs_cache with
  | none =>
    simp only [ADCController.create_outbound, hfind]
    exact h1
  | some adc =>
    cases hchk : checkOutboundItems adc.specs req.items with
    | some e =>
      simp only [ADCController.create_outbound, hfind, hchk]
      exact h1
    | none =>
      simp only [ADCController.create_outbound, hfind, hchk]
      exact adc_nonneg_outboundMutate _ _ req.items _ h1

theorem adc_nonneg_create_inbound (s : ADCController) (req : InboundRequest) (now : Nat)
    (hq : ∀ item ∈ req.items, 0 ≤ item.quantity)
    (h : NonNegSpecs s.db) : NonNegSpecs (s.create_inbound req now).2.db := by
  have hdb : s.init_cache.db = s.db := adc_init_cache_db s
  have h1 : NonNegSpecs s.init_cache.db := by rw [hdb]; exact h
  cases hfind : findRow (fun a => a.row.lot_number = req.lot_number)
      s.init_cache.all_adcs_cache with
  | none =>
    simp only [ADCController.create_inbound, hfind]
    exact h1
  | some adc =>
    simp only [ADCController.create_inbound, hfind]
    exact adc_nonneg_inboundMutate _ _ _ req.items _ hq h1

theorem adc_nonneg_runLedger : ∀ (calls : List LedgerCall) (s : ADCController),
    NonNegSpecs s.db → (∀ c ∈ calls, c.itemsNonNeg) →
    NonNegSpecs (runLedger s calls).db := by
  intro calls
  induction calls with
  | nil => intro s h _; exact h
  | cons c rest ih =>
    intro s h hc
    have hrest : ∀ x ∈ rest, x.itemsNonNeg := fun x hx => hc x (List.mem_cons_of_mem c hx)
    cases c with
    | inboundCall req now =>
      simp only [runLedger]
      exact ih _ (adc_nonneg_create_inbound s req now
        (hc _ (List.mem_cons_self _ rest)) h) hrest
    | outboundCall req now =>
      simp only [runLedger]
      exact ih _ (adc_nonneg_create_outbound s req now h) hrest

/-- When every requested line resolves a spec-lot within tolerance and some
line's resolved spec-lot has fewer vials than requested, the validation pass
reports an insufficient-stock error. -/
theorem adc_checkOutbound_insufficient (specs : List ADCSpecRow) :
    ∀ items : List MovementItem,
      (∀ item ∈ items, (findSpecTol item.spec_mg specs).isSome = true) →
      (∃ item ∈ items, ∃ sp, findSpecTol item.spec_mg specs = some sp ∧
        sp.quantity < item.quantity) →
      ∃ mg cur need, checkOutboundItems specs items =
        some (.insufficientStock mg cur need) := by
  intro items
  induction items with
  | nil =>
    rintro _ ⟨item, hmem, -⟩
    exact absurd hmem (List.not_mem_nil item)
  | cons item rest ih =>
    intro hres hex
    obtain ⟨sp0, hsp0⟩ := Option.isSome_iff_exists.mp
      (hres item (List.mem_cons_self item rest))
    by_cases hlt : sp0.quantity < item.quantity
    · exact ⟨item.spec_mg, sp0.quantity, item.quantity,
        by simp [checkOutboundItems, hsp0, hlt]⟩
    · have hstep : checkOutboundItems specs (item :: rest) = checkOutboundItems specs rest := by
        simp [checkOutboundItems, hsp0, hlt]
      obtain ⟨it0, hit0, sp1, hsp1, hlt1⟩ := hex
      rcases List.mem_cons.mp hit0 with rfl | hmem
      · rw [hsp0] at hsp1
        injection hsp1 with hsp1
        subst hsp1
        exact absurd hlt1 hlt
      · obtain ⟨mg, cur, need, hcs⟩ := ih
          (fun i hi => hres i (List.mem_cons_of_mem item hi)) ⟨it0, hmem, sp1, hsp1, hlt1⟩
        exact ⟨mg, cur, need, by rw [hstep, hcs]⟩

/-- Claim C1 (amended): (1) over any sequence of applyInbound/applyOutbound
calls starting from non-negative spec-lot vial counts, in which every inbound
line's quantity is non-negative, no spec-lot's vial count is ever negative
(outbound needs no such restriction: its decrement is statement-level
guarded); and (2) an applyOutbound request whose lines all resolve a spec-lot
and in which some line requests more than its resolved spec-lot holds returns
an InsufficientStock error, creates no outbound record, and leaves every
spec-lot — indeed the whole state — unchanged.  (The original claim is false
without the non-negative-line restriction, see the counterexample: an inbound
line with a negative quantity drives a vial count negative.) -/
theorem claim_C1_theorem (s : ADCController) (calls : List LedgerCall)
    (h0 : NonNegSpecs s.db) (hcalls : ∀ c ∈ calls, c.itemsNonNeg)
    (t : ADCController) (req : OutboundRequest) (now : Nat) (adc : ADC)
    (hco : Coherent t) (hinit : t.cache_initialized = true)
    (hfind : findRow (fun a => a.row.lot_number = req.lot_number)
      t.all_adcs_cache = some adc)
    (hres : ∀ item ∈ req.items, (findSpecTol item.spec_mg adc.specs).isSome = true)
    (hex : ∃ item ∈ req.items, ∃ sp, findSpecTol item.spec_mg adc.specs = some sp ∧
      sp.quantity < item.quantity) :
    NonNegSpecs (runLedger s calls).db ∧
    ∃ mg cur need, t.create_outbound req now =
      (.error (.insufficientStock mg cur need), t) := by
  refine ⟨adc_nonneg_runLedger calls s h0 hcalls, ?_⟩
  obtain ⟨mg, cur, need, hchk⟩ := adc_checkOutbound_insufficient adc.specs req.items hres hex
  have hs1 : t.init_cache = t := adc_init_cache_of_initialized hinit
  exact ⟨mg, cur, need, by simp [ADCController.create_outbound, hs1, hfind, hchk]⟩

/-- Claim C1, counterexample: starting from the non-negative state `c1db`
(spec-lot vial count 0), a single applyInbound call whose line carries
quantity -1 succeeds and leaves the spec-lot at -1 vials: without a
non-negativity restriction on inbound line quantities the invariant is
false. -/
theorem claim_C1_counterexample :
    NonNegSpecs c1state.db ∧
    (runLedger c1state [LedgerCall.inboundCall c1request 3]).db.adc_specs =
      [⟨1, 1, 1, -1, 0⟩] ∧
    ¬ NonNegSpecs (runLedger c1state [LedgerCall.inboundCall c1request 3]).db := by
  have h2 : (runLedger c1state [LedgerCall.inboundCall c1request 3]).db.adc_specs =
      [⟨1, 1, 1, -1, 0⟩] := by
    norm_num [runLedger, c1state, c1db, c1request, sampleRow, ADCController.create_inbound,
      ADCController.init_cache, ADCController.refresh_cache, loadAdcs,
      ADCRepository.get_all_adcs, sortAdcsByCreatedDesc, orderedInsertAdc,
      ADCRepository.get_specs_by_adc_id, sortSpecsByMg, orderedInsertSpec, selectRows,
      findRow, ADCRepository.create_inbound, inboundMutateItems,
      ADCRepository.add_inbound_item, ADCRepository.get_spec_by_adc_and_mg,
      ADCRepository.increase_spec_quantity, rowExists, updateRows]
  refine ⟨?_, h2, ?_⟩
  · intro sp hsp
    have hs : sp = ⟨1, 1, 1, 0, 0⟩ := by simpa [c1state, c1db] using hsp
    rw [hs]
  · intro h
    have hm : (⟨1, 1, 1, -1, 0⟩ : ADCSpecRow) ∈
        (runLedger c1state [LedgerCall.inboundCall c1request 3]).db.adc_specs := by
      rw [h2]
      exact List.mem_cons_self _ _
    have := h _ hm
    norm_num at this

/-- Claim C1, witness: the amended theorem applied to the empty call sequence
over `c1state` and to the spec scenario of an outbound of 11 vials against a
10-vial spec-lot over the warm-cache state `c1wstate`. -/
theorem claim_C1_witness :
    NonNegSpecs (runLedger c1state []).db ∧
    ∃ mg cur need, c1wstate.create_outbound c1wrequest 9 =
      (.error (.insufficientStock mg cur need), c1wstate) := by
  refine claim_C1_theorem c1state [] ?_ ?_ c1wstate c1wrequest 9
    ⟨sampleRow 1 "LOT-W", [⟨1, 1, 1, 10, 0⟩]⟩ rfl rfl ?_ ?_ ?_
  · intro sp hsp
    have hs : sp = ⟨1, 1, 1, 0, 0⟩ := by simpa [c1state, c1db] using hsp
    rw [hs]
  · intro c hc
    exact absurd hc (List.not_mem_nil c)
  · norm_num [c1wstate, c1wdb, c1wrequest, loadAdcs, ADCRepository.get_all_adcs,
      sortAdcsByCreatedDesc, orderedInsertAdc, ADCRepository.get_specs_by_adc_id,
      sortSpecsByMg, orderedInsertSpec, selectRows, findRow, sampleRow]
  · intro item hitem
    have hi : item = ⟨1, 11⟩ := by simpa [c1wrequest] using hitem
    rw [hi]
    norm_num [findSpecTol, abs_lt]
  · exact ⟨⟨1, 11⟩, by simp [c1wrequest], ⟨1, 1, 1, 10, 0⟩,
      by norm_num [findSpecTol, abs_lt], by norm_num⟩

/-- The spec-replacement tail of update_adc refreshes the cache on success,
so reads afterwards serve the store view. -/
theorem adc_update_body_serves (s : ADCController) (inp : ADCInput) (now qid : Nat)
    (s2 : ADCController) (h : ADCController.update_adc_body s inp now = (.ok (), s2)) :
    ServesStore s2 qid := by
  unfold ADCController.update_adc_body at h
  by_cases hr : (ADCRepository.update_adc s.db inp now).1 = false
  · simp [hr] at h
  · simp [hr] at h
    subst h
    exact adc_serves_of_coherent (adc_coherent_refresh _) qid

/-- Claim C6: after any mutating sample operation returns successfully, the
cache-served reads get_adc and get_all_adcs equal the view defined by the
store contents as of that call — the mutation is visible exactly once, with
no staleness and no duplication.  One conjunct per mutating operation
(create/update/delete sample, add/update/update-quantity/delete spec-lot,
apply outbound/inbound). -/
theorem claim_C6_theorem (s : ADCController) (inp : ADCInput) (now qid adc_id spec_id : Nat)
    (spec_mg : ℚ) (quantity : Int) (oreq : OutboundRequest) (ireq : InboundRequest) :
    (∀ rid s2, s.create_adc inp now = (.ok rid, s2) → ServesStore s2 qid) ∧
    (∀ s2, s.update_adc inp now = (.ok (), s2) → ServesStore s2 qid) ∧
    (∀ s2, s.delete_adc adc_id = (true, s2) → ServesStore s2 qid) ∧
    (∀ rid s2, s.add_spec adc_id spec_mg quantity now = (rid, s2) → ServesStore s2 qid) ∧
    (∀ s2, s.update_spec spec_id spec_mg quantity = (true, s2) → ServesStore s2 qid) ∧
    (∀ s2, s.update_spec_quantity spec_id quantity = (true, s2) → ServesStore s2 qid) ∧
    (∀ s2, s.delete_spec spec_id = (true, s2) → ServesStore s2 qid) ∧
    (∀ rid s2, s.create_outbound oreq now = (.ok rid, s2) → ServesStore s2 qid) ∧
    (∀ rid s2, s.create_inbound ireq now = (.ok rid, s2) → ServesStore s2 qid) := by
  refine ⟨?_, ?_, ?_, ?_, ?_, ?_, ?_, ?_, ?_⟩
  · intro rid s2 h
    cases hm : ADCRepository.create_adc s.db inp now with
    | error e => simp [ADCController.create_adc, hm] at h
    | ok p =>
      obtain ⟨aid, db1⟩ := p
      simp [ADCController.create_adc, hm] at h
      obtain ⟨-, h2⟩ := h
      subst h2
      exact adc_serves_of_coherent (adc_coherent_refresh _) qid
  · intro s2 h
    by_cases h0 : inp.id = 0
    · simp [ADCController.update_adc, h0] at h
    · cases hg : ADCRepository.get_adc_by_id s.db inp.id with
      | none => simp [ADCController.update_adc, h0, hg] at h
      | some arow =>
        cases hl : ADCRepository.get_adc_by_lot_number s.db inp.lot_number with
        | some lot_check =>
          by_cases hne : lot_check.id ≠ inp.id
          · simp [ADCController.update_adc, h0, hg, hl, hne] at h
          · simp only [ADCController.update_adc, h0, hg, hl, hne, if_neg, ite_false,
              if_false] at h
            exact adc_update_body_serves s inp now qid s2 (by
              simpa [ADCController.update_adc, h0, hg, hl, hne] using h)
        | none =>
          exact adc_update_body_serves s inp now qid s2 (by
            simpa [ADCController.update_adc, h0, hg, hl] using h)
  · intro s2 h
    unfold ADCController.delete_adc at h
    by_cases hr : (ADCRepository.delete_adc s.db adc_id).1
    · simp [hr] at h
      subst h
      exact adc_serves_of_coherent (adc_coherent_refresh _) qid
    · simp [hr] at h
  · intro rid s2 h
    unfold ADCController.add_spec at h
    simp at h
    obtain ⟨-, h2⟩ := h
    subst h2
    exact adc_serves_of_coherent (adc_coherent_refresh _) qid
  · intro s2 h
    unfold ADCController.update_spec at h
    by_cases hr : (ADCRepository.update_spec s.db spec_id spec_mg quantity).1
    · simp [hr] at h
      subst h
      exact adc_serves_of_coherent (adc_coherent_refresh _) qid
    · simp [hr] at h
  · intro s2 h
    unfold ADCController.update_spec_quantity at h
    by_cases hr : (ADCRepository.update_spec_quantity s.db spec_id quantity).1
    · simp [hr] at h
      subst h
      exact adc_serves_of_coherent (adc_coherent_refresh _) qid
    · simp [hr] at h
  · intro s2 h
    unfold ADCController.delete_spec at h
    by_cases hr : (ADCRepository.delete_spec s.db spec_id).1
    · simp [hr] at h
      subst h
      exact adc_serves_of_coherent (adc_coherent_refresh _) qid
    · simp [hr] at h
  · intro rid s2 h
    cases hfind : findRow (fun a => a.row.lot_number = oreq.lot_number)
        s.init_cache.all_adcs_cache with
    | none => simp [ADCController.create_outbound, hfind] at h
    | some adc =>
      cases hchk : checkOutboundItems adc.specs oreq.items with
      | some e => simp [ADCController.create_outbound, hfind, hchk] at h
      | none =>
        simp [ADCController.create_outbound, hfind, hchk] at h
        obtain ⟨-, h2⟩ := h
        subst h2
        exact adc_serves_of_coherent (adc_coherent_refresh _) qid
  · intro rid s2 h
    cases hfind : findRow (fun a => a.row.lot_number = ireq.lot_number)
        s.init_cache.all_adcs_cache with
    | none => simp [ADCController.create_inbound, hfind] at h
    | some adc =>
      simp [ADCController.create_inbound, hfind] at h
      obtain ⟨-, h2⟩ := h
      subst h2
      exact adc_serves_of_coherent (adc_coherent_refresh _) qid

/-- Claim C6, witness: the theorem applied to a concrete successful add_spec
over `c6state` — the subsequent cache-served reads equal the store view. -/
theorem claim_C6_witness :
    ServesStore (c6state.add_spec 1 2 5 7).2 1 :=
  (claim_C6_theorem c6state ⟨0, "L", "S", "", 0, "", "", "", "", "", []⟩ 7 1 1 1 2 5
    ⟨"L", "r", "o", "a", "", []⟩ ⟨"L", "o", "w", "p", "", []⟩).2.2.2.1
    (c6state.add_spec 1 2 5 7).1 (c6state.add_spec 1 2 5 7).2 rfl

end Adc

namespace Inv

/-- A line returned by the order-lines JOIN references an existing material. -/
theorem inv_mem_order_materials {db : InvDB} {order_id : Nat} {om : OrderMaterialRow}
    (h : om ∈ get_order_materials db order_id) :
    om ∈ db.order_materials ∧ om.order_id = order_id ∧
      (get_material db om.material_id).isSome = true := by
  have h2 := (mem_selectRows _ _ _).mp h
  exact ⟨h2.1, h2.2.1, h2.2.2⟩

/-- When every line is sufficient, the stock precondition loop passes. -/
theorem inv_checkStock_none (db : InvDB) :
    ∀ lines : List OrderMaterialRow,
      (∀ om ∈ lines, ∃ m, get_material db om.material_id = some m ∧
        om.quantity ≤ m.quantity) →
      checkStock db lines = none := by
  intro lines
  induction lines with
  | nil => intro _; rfl
  | cons om rest ih =>
    intro hall
    obtain ⟨m, hm, hle⟩ := hall om (List.mem_cons_self om rest)
    have hnl : ¬ m.quantity < om.quantity := not_lt.mpr hle
    simp [checkStock, hm, hnl,
      ih (fun x hx => hall x (List.mem_cons_of_mem om hx))]

/-- When every line's material exists and some line is insufficient, the
precondition loop reports an insufficient-stock error. -/
theorem inv_checkStock_insufficient (db : InvDB) :
    ∀ lines : List OrderMaterialRow,
      (∀ om ∈ lines, (get_material db om.material_id).isSome = true) →
      (∃ om ∈ lines, ∃ m, get_material db om.material_id = some m ∧
        m.quantity < om.quantity) →
      ∃ name req cur, checkStock db lines =
        some (.insufficientStock name req cur) := by
  intro lines
  induction lines with
  | nil =>
    rintro _ ⟨om, hmem, -⟩
    exact absurd hmem (List.not_mem_nil om)
  | cons om rest ih =>
    intro hall hex
    obtain ⟨m0, hm0⟩ := Option.isSome_iff_exists.mp (hall om (List.mem_cons_self om rest))
    by_cases hlt : m0.quantity < om.quantity
    · exact ⟨m0.name, om.quantity, m0.quantity, by simp [checkStock, hm0, hlt]⟩
    · have hstep : checkStock db (om :: rest) = checkStock db rest := by
        simp [checkStock, hm0, hlt]
      obtain ⟨om1, hom1, m1, hm1, hlt1⟩ := hex
      rcases List.mem_cons.mp hom1 with rfl | hmem
      · rw [hm0] at hm1
        injection hm1 with hm1
        subst hm1
        exact absurd hlt1 hlt
      · obtain ⟨name, req, cur, hcs⟩ := ih
          (fun x hx => hall x (List.mem_cons_of_mem om hx)) ⟨om1, hmem, m1, hm1, hlt1⟩
        exact ⟨name, req, cur, by rw [hstep, hcs]⟩

/-- The per-line statements of the completion transaction do not touch the
orders table. -/
theorem inv_lineOps_orders (order_id : Nat) :
    ∀ (lines : List OrderMaterialRow) (db : InvDB),
      (execute_transaction db (lineOps order_id lines)).orders = db.orders := by
  intro lines
  induction lines with
  | nil => intro db; rfl
  | cons om rest ih =>
    intro db
    have hstep : execute_transaction db (lineOps order_id (om :: rest)) =
        execute_transaction
          (applyOp (applyOp db (.decreaseMaterial om.material_id om.quantity))
            (.insertMovement om.material_id MovementType.OUT om.quantity
              (some order_id) "订单完成"))
          (lineOps order_id rest) := rfl
    rw [hstep, ih]
    rfl

/-- The per-line statements of the completion transaction do not touch the
order_materials table. -/
theorem inv_lineOps_order_materials (order_id : Nat) :
    ∀ (lines : List OrderMaterialRow) (db : InvDB),
      (execute_transaction db (lineOps order_id lines)).order_materials =
        db.order_materials := by
  intro lines
  induction lines with
  | nil => intro db; rfl
  | cons om rest ih =>
    intro db
    have hstep : execute_transaction db (lineOps order_id (om :: rest)) =
        execute_transaction
          (applyOp (applyOp db (.decreaseMaterial om.material_id om.quantity))
            (.insertMovement om.material_id MovementType.OUT om.quantity
              (some order_id) "订单完成"))
          (lineOps order_id rest) := rfl
    rw [hstep, ih]
    rfl

/-- The per-line statements of the completion transaction append one 'out'
stock movement per line, in line order. -/
theorem inv_lineOps_movements (order_id : Nat) :
    ∀ (lines : List OrderMaterialRow) (db : InvDB),
      (execute_transaction db (lineOps order_id lines)).stock_movements =
        db.stock_movements ++ lines.map (fun om =>
          (⟨om.material_id, MovementType.OUT, om.quantity, some order_id,
            "订单完成"⟩ : StockMovementRow)) := by
  intro lines
  induction lines with
  | nil => intro db; simp [execute_transaction, lineOps]
  | cons om rest ih =>
    intro db
    have hstep : execute_transaction db (lineOps order_id (om :: rest)) =
        execute_transaction
          (applyOp (applyOp db (.decreaseMaterial om.material_id om.quantity))
            (.insertMovement om.material_id MovementType.OUT om.quantity
              (some order_id) "订单完成"))
          (lineOps order_id rest) := rfl
    rw [hstep, ih]
    show (db.stock_movements ++
        [⟨om.material_id, MovementType.OUT, om.quantity, some order_id, "订单完成"⟩]) ++ _ = _
    simp [List.append_assoc]

/-- The per-line statements of the completion transaction decrement each
material by the total quantity of the lines referencing it. -/
theorem inv_lineOps_materials (order_id : Nat) :
    ∀ (lines : List OrderMaterialRow) (db : InvDB),
      (execute_transaction db (lineOps order_id lines)).materials =
        db.materials.map (fun m =>
          { m with quantity := m.quantity - lineTotal lines m.id }) := by
  intro lines
  induction lines with
  | nil =>
    intro db
    have hid : ∀ m : MaterialRow,
        ({ m with quantity := m.quantity - lineTotal [] m.id }) = m := by
      intro m
      cases m
      simp [lineTotal]
    show db.materials = _
    rw [listMapExt _ id hid db.materials, List.map_id]
  | cons om rest ih =>
    intro db
    have hstep : execute_transaction db (lineOps order_id (om :: rest)) =
        execute_transaction
          (applyOp (applyOp db (.decreaseMaterial om.material_id om.quantity))
            (.insertMovement om.material_id MovementType.OUT om.quantity
              (some order_id) "订单完成"))
          (lineOps order_id rest) := rfl
    rw [hstep, ih]
    show (updateRows (fun m => m.id = om.material_id) (fun m =>
        { m with quantity := m.quantity - om.quantity }) db.materials).map _ = _
    unfold updateRows
    rw [List.map_map]
    refine listMapExt _ _ ?_ db.materials
    intro m
    by_cases hc : m.id = om.material_id
    · have hc2 : om.material_id = m.id := hc.symm
      cases m
      simp only [Function.comp] at *
      rw [if_pos hc]
      simp only [lineTotal, if_pos hc2]
      simp only [MaterialRow.mk.injEq, and_true, true_and]
      omega
    · have hc2 : ¬ om.material_id = m.id := fun hh => hc hh.symm
      cases m
      simp only [Function.comp] at *
      rw [if_neg hc]
      simp only [lineTotal, if_neg hc2]
      simp [MaterialRow.mk.injEq]

/-- Claim C2: completeOrder on an existing order in a non-terminal status
either (a) fails when some line's material has quantity below the requested
one, returning an insufficient-stock error and leaving the database
untouched, or (b) succeeds, setting the order's status to completed with a
completion timestamp, decrementing every line's material by its requested
quantity, and inserting one 'out' stock movement per line referencing the
order — all submitted as one execute_transaction call. -/
theorem claim_C2_theorem (db : InvDB) (order_id now : Nat) (o : OrderRow)
    (hf : findRow (fun r => r.id = order_id) db.orders = some o)
    (h1 : o.status ≠ OrderStatus.COMPLETED) (h2 : o.status ≠ OrderStatus.CANCELLED) :
    ((∃ om ∈ get_order_materials db order_id, ∃ m,
        get_material db om.material_id = some m ∧ m.quantity < om.quantity) →
      ∃ name req cur, complete_order db order_id now =
        (.error (.insufficientStock name req cur), db)) ∧
    ((∀ om ∈ get_order_materials db order_id, ∃ m,
        get_material db om.material_id = some m ∧ om.quantity ≤ m.quantity) →
      complete_order db order_id now = (.ok (),
        { materials := db.materials.map (fun m =>
            { m with quantity :=
                m.quantity - lineTotal (get_order_materials db order_id) m.id }),
          orders := updateRows (fun r => r.id = order_id) (fun r =>
            { r with status := OrderStatus.COMPLETED, completed_at := some now,
                     updated_at := now }) db.orders,
          order_materials := db.order_materials,
          stock_movements := db.stock_movements ++
            (get_order_materials db order_id).map (fun om =>
              ⟨om.material_id, MovementType.OUT, om.quantity, some order_id,
                "订单完成"⟩) })) := by
  constructor
  · intro hex
    have hall : ∀ om ∈ get_order_materials db order_id,
        (get_material db om.material_id).isSome = true :=
      fun om hom => (inv_mem_order_materials hom).2.2
    obtain ⟨name, req, cur, hcs⟩ := inv_checkStock_insufficient db _ hall hex
    exact ⟨name, req, cur, by simp [complete_order, hf, h1, h2, hcs]⟩
  · intro hall
    have hcs : checkStock db (get_order_materials db order_id) = none :=
      inv_checkStock_none db _ hall
    have hmain : complete_order db order_id now = (.ok (),
        execute_transaction db (.completeOrderStatus order_id now ::
          lineOps order_id (get_order_materials db order_id))) := by
      simp [complete_order, hf, h1, h2, hcs]
    rw [hmain]
    have hstep : execute_transaction db (.completeOrderStatus order_id now ::
        lineOps order_id (get_order_materials db order_id)) =
        execute_transaction (applyOp db (.completeOrderStatus order_id now))
          (lineOps order_id (get_order_materials db order_id)) := rfl
    have hmat := inv_lineOps_materials order_id (get_order_materials db order_id)
      (applyOp db (.completeOrderStatus order_id now))
    have hord := inv_lineOps_orders order_id (get_order_materials db order_id)
      (applyOp db (.completeOrderStatus order_id now))
    have homs := inv_lineOps_order_materials order_id (get_order_materials db order_id)
      (applyOp db (.completeOrderStatus order_id now))
    have hmov := inv_lineOps_movements order_id (get_order_materials db order_id)
      (applyOp db (.completeOrderStatus order_id now))
    have hX : execute_transaction db (.completeOrderStatus order_id now ::
        lineOps order_id (get_order_materials db order_id)) =
        ⟨db.materials.map (fun m =>
            { m with quantity :=
                m.quantity - lineTotal (get_order_materials db order_id) m.id }),
         updateRows (fun r => r.id = order_id) (fun r =>
            { r with status := OrderStatus.COMPLETED, completed_at := some now,
                     updated_at := now }) db.orders,
         db.order_materials,
         db.stock_movements ++ (get_order_materials db order_id).map (fun om =>
            ⟨om.material_id, MovementType.OUT, om.quantity, some order_id,
              "订单完成"⟩)⟩ := by
      rw [hstep]
      calc execute_transaction (applyOp db (.completeOrderStatus order_id now))
            (lineOps order_id (get_order_materials db order_id)) =
          ⟨(execute_transaction (applyOp db (.completeOrderStatus order_id now))
              (lineOps order_id (get_order_materials db order_id))).materials,
           (execute_transaction (applyOp db (.completeOrderStatus order_id now))
              (lineOps order_id (get_order_materials db order_id))).orders,
           (execute_transaction (applyOp db (.completeOrderStatus order_id now))
              (lineOps order_id (get_order_materials db order_id))).order_materials,
           (execute_transaction (applyOp db (.completeOrderStatus order_id now))
              (lineOps order_id (get_order_materials db order_id))).stock_movements⟩ := rfl
        _ = _ := by
          rw [hmat, hord, homs, hmov]
          rfl
    rw [hX]

/-- Claim C2, witness: the theorem applied to `c2db` (material quantity 5,
one pending order line requesting 3): completion succeeds, the material
drops to 2, the order is completed at clock 9 and one 'out' movement
referencing the order is recorded. -/
theorem claim_C2_witness :
    complete_order c2db 1 9 = (.ok (),
      ⟨[⟨1, "A", "c", "", 2, "u", 0, "", "", 0, 0⟩],
       [⟨1, "ORD-2", "r", "d", "completed", "normal", "", 0, 9, some 9⟩],
       [⟨1, 1, 1, 3, ""⟩],
       [⟨1, "out", 3, some 1, "订单完成"⟩]⟩) := by
  have hsuff : ∀ om ∈ get_order_materials c2db 1,
      ∃ m, get_material c2db om.material_id = some m ∧ om.quantity ≤ m.quantity := by
    intro om hom
    have hlist : get_order_materials c2db 1 = [⟨1, 1, 1, 3, ""⟩] := by decide
    rw [hlist] at hom
    have heq : om = ⟨1, 1, 1, 3, ""⟩ := by simpa using hom
    rw [heq]
    exact ⟨⟨1, "A", "c", "", 5, "u", 0, "", "", 0, 0⟩, by decide, by decide⟩
  have h := (claim_C2_theorem c2db 1 9
    ⟨1, "ORD-2", "r", "d", "pending", "normal", "", 0, 0, none⟩
    (by decide) (by decide) (by decide)).2 hsuff
  rw [h]
  decide

/-- Claim C3 (on the spec-intended wiring; the shipped code raises an
uncaught AttributeError instead, see the model note on update_material):
after two reads of a material yielding version token v0, the first update
carrying v0 succeeds, rewrites the row (stamping a fresh updated_at) and
appends a stock movement for the signed quantity delta when it is non-zero;
the second update carrying the stale v0 fails with VersionConflict —
an error distinct from NotFound — and leaves the row exactly as the first
update wrote it. -/
theorem claim_C3_theorem (db : InvDB) (m1 m2 : MaterialInput) (row : MaterialRow)
    (v0 t1 t2 : Nat)
    (hid1 : m1.id ≠ 0) (hid2 : m2.id = m1.id)
    (hrow : findRow (fun r => r.id = m1.id) db.materials = some row)
    (hv : row.updated_at = v0) (ht : t1 ≠ v0) :
    (update_material db m1 (some v0) t1).1 = .ok () ∧
    findRow (fun r => r.id = m1.id) (update_material db m1 (some v0) t1).2.materials =
      some { row with name := m1.name, category := m1.category,
                      description := m1.description, quantity := m1.quantity,
                      unit := m1.unit, min_stock := m1.min_stock,
                      location := m1.location, supplier := m1.supplier,
                      updated_at := t1 } ∧
    (update_material db m1 (some v0) t1).2.stock_movements = db.stock_movements ++
      (if m1.quantity - row.quantity ≠ 0 then
        [⟨m1.id, (if 0 < m1.quantity - row.quantity then MovementType.IN
                  else MovementType.OUT),
          |m1.quantity - row.quantity|, none, "库存调整"⟩]
       else []) ∧
    update_material (update_material db m1 (some v0) t1).2 m2 (some v0) t2 =
      (.error .versionConflict, (update_material db m1 (some v0) t1).2) ∧
    UpdateError.versionConflict ≠ UpdateError.notFound := by
  have hrs := findRow_eq_some hrow
  have hre : rowExists (fun m => m.id = m1.id ∧ m.updated_at = v0) db.materials = true := by
    unfold rowExists
    exact (findRow_isSome_iff _ _).mpr ⟨row, hrs.1, hrs.2, hv⟩
  have hfr : findRow (fun r => r.id = m1.id)
      (updateRows (fun m => m.id = m1.id ∧ m.updated_at = v0) (fun m =>
        { m with name := m1.name, category := m1.category,
                 description := m1.description, quantity := m1.quantity,
                 unit := m1.unit, min_stock := m1.min_stock,
                 location := m1.location, supplier := m1.supplier,
                 updated_at := t1 }) db.materials) =
      some { row with name := m1.name, category := m1.category,
                      description := m1.description, quantity := m1.quantity,
                      unit := m1.unit, min_stock := m1.min_stock,
                      location := m1.location, supplier := m1.supplier,
                      updated_at := t1 } := by
    rw [findRow_updateRows (fun r : MaterialRow => r.id = m1.id)
      (fun m : MaterialRow => m.id = m1.id ∧ m.updated_at = v0) (fun m : MaterialRow =>
        { m with name := m1.name, category := m1.category,
                 description := m1.description, quantity := m1.quantity,
                 unit := m1.unit, min_stock := m1.min_stock,
                 location := m1.location, supplier := m1.supplier,
                 updated_at := t1 }) (fun a => Iff.rfl), hrow]
    simp [hrs.2, hv]
  have hm2id : ¬ m2.id = 0 := by rw [hid2]; exact hid1
  have hconj : ∀ S : InvDB,
      findRow (fun r => r.id = m2.id) S.materials =
        some { row with name := m1.name, category := m1.category,
                        description := m1.description, quantity := m1.quantity,
                        unit := m1.unit, min_stock := m1.min_stock,
                        location := m1.location, supplier := m1.supplier,
                        updated_at := t1 } →
      update_material S m2 (some v0) t2 = (.error .versionConflict, S) := by
    intro S hfS
    simp [update_material, hm2id, get_material_with_version, hfS, ht]
  by_cases hd : m1.quantity - row.quantity ≠ 0
  · have hcall1 : update_material db m1 (some v0) t1 = (.ok (),
        record_stock_movement
          { db with materials := updateRows (fun m => m.id = m1.id ∧ m.updated_at = v0) (fun m =>
                { m with name := m1.name, category := m1.category,
                         description := m1.description, quantity := m1.quantity,
                         unit := m1.unit, min_stock := m1.min_stock,
                         location := m1.location, supplier := m1.supplier,
                         updated_at := t1 }) db.materials }
          m1.id (if 0 < m1.quantity - row.quantity then MovementType.IN
                 else MovementType.OUT)
          |m1.quantity - row.quantity| "库存调整") := by
      simp [update_material, hid1, get_material_with_version, hrow, hv,
        update_material_with_version, hre, hd]
    have hfind2 : findRow (fun r => r.id = m2.id)
        (update_material db m1 (some v0) t1).2.materials =
        some { row with name := m1.name, category := m1.category,
                        description := m1.description, quantity := m1.quantity,
                        unit := m1.unit, min_stock := m1.min_stock,
                        location := m1.location, supplier := m1.supplier,
                        updated_at := t1 } := by
      rw [hid2, hcall1]
      exact hfr
    refine ⟨by rw [hcall1], by rw [hcall1]; exact hfr, ?_, ?_, by decide⟩
    · rw [hcall1]
      simp [record_stock_movement, hd]
    · exact hconj _ hfind2
  · have hcall1 : update_material db m1 (some v0) t1 = (.ok (),
        { db with materials := updateRows (fun m => m.id = m1.id ∧ m.updated_at = v0) (fun m =>
              { m with name := m1.name, category := m1.category,
                       description := m1.description, quantity := m1.quantity,
                       unit := m1.unit, min_stock := m1.min_stock,
                       location := m1.location, supplier := m1.supplier,
                       updated_at := t1 }) db.materials }) := by
      simp [update_material, hid1, get_material_with_version, hrow, hv,
        update_material_with_version, hre, hd]
    have hfind2 : findRow (fun r => r.id = m2.id)
        (update_material db m1 (some v0) t1).2.materials =
        some { row with name := m1.name, category := m1.category,
                        description := m1.description, quantity := m1.quantity,
                        unit := m1.unit, min_stock := m1.min_stock,
                        location := m1.location, supplier := m1.supplier,
                        updated_at := t1 } := by
      rw [hid2, hcall1]
      exact hfr
    refine ⟨by rw [hcall1], by rw [hcall1]; exact hfr, ?_, ?_, by decide⟩
    · rw [hcall1]
      simp [hd]
    · exact hconj _ hfind2

/-- Claim C3, witness: the theorem applied to `c3db` — the first editor's
update (10 → 15 at clock 5) succeeds and records an 'in' movement of 5; the
second editor's update with the stale token 0 returns VersionConflict and
changes nothing. -/
theorem claim_C3_witness :
    (update_material c3db c3m1 (some 0) 5).1 = .ok () ∧
    update_material (update_material c3db c3m1 (some 0) 5).2 c3m2 (some 0) 6 =
      (.error .versionConflict, (update_material c3db c3m1 (some 0) 5).2) ∧
    (update_material c3db c3m1 (some 0) 5).2.stock_movements =
      [⟨1, "in", 5, none, "库存调整"⟩] := by
  have h := claim_C3_theorem c3db c3m1 c3m2 ⟨1, "M", "c", "", 10, "u", 0, "", "", 0, 0⟩
    0 5 6 (by decide) (by decide) (by decide) (by decide) (by decide)
  refine ⟨h.1, h.2.2.2.1, ?_⟩
  rw [h.2.2.1]
  decide

end Inv

end AutoInventory
